import Mathlib

/-!
# Import resolution of the controller scaffold (internal/scaffold/controller_kind.go)

A shallow embedding of `getCustomAPIImportPathAndIdent`, `ControllerKind.setImports` and
`ControllerKind.GetInput`, followed by the properties established about them.

Go strings are modelled as lists of Unicode code points (`List Char`), that is, as valid UTF-8
text.  Go maps are reference objects: the package variable `controllerKindImports` names one map
object, whose contents are a component of the process state.

The functions of the packages unicode, strings and path are modelled after the Go standard
library.  The range tables of package unicode above Latin-1 are those of Unicode 14.0.0; Latin-1
and the white space set, on which the proofs below rest, are the same in every version.
-/

namespace Scaffold

/-- A Go string holding valid UTF-8, as its sequence of runes. -/
abbrev GoString := List Char

/-! ## Standard library: package unicode -/

/-- Membership of a code point in a table of inclusive ranges (unicode.Is on a RangeTable). -/
def inRanges (tbl : List (Nat × Nat)) (n : Nat) : Bool :=
  tbl.any fun r => decide (r.1 ≤ n) && decide (n ≤ r.2)

/-- Range table unicode.White_Space above Latin-1. -/
def unicodeWhiteSpaceRanges : List (Nat × Nat) :=
  [(0x1680, 0x1680), (0x2000, 0x200A), (0x2028, 0x2029), (0x202F, 0x202F), (0x205F, 0x205F),
   (0x3000, 0x3000)]

/-- Range table unicode.Letter (general category L) above Latin-1, as inclusive code point
ranges in increasing order. -/
def unicodeLetterRanges : List (Nat × Nat) := [
  (0x100, 0x2C1), (0x2C6, 0x2D1), (0x2E0, 0x2E4), (0x2EC, 0x2EC), (0x2EE, 0x2EE), (0x370, 0x374),
  (0x376, 0x377), (0x37A, 0x37D), (0x37F, 0x37F), (0x386, 0x386), (0x388, 0x38A), (0x38C, 0x38C),
  (0x38E, 0x3A1), (0x3A3, 0x3F5), (0x3F7, 0x481), (0x48A, 0x52F), (0x531, 0x556), (0x559, 0x559),
  (0x560, 0x588), (0x5D0, 0x5EA), (0x5EF, 0x5F2), (0x620, 0x64A), (0x66E, 0x66F), (0x671, 0x6D3),
  (0x6D5, 0x6D5), (0x6E5, 0x6E6), (0x6EE, 0x6EF), (0x6FA, 0x6FC), (0x6FF, 0x6FF), (0x710, 0x710),
  (0x712, 0x72F), (0x74D, 0x7A5), (0x7B1, 0x7B1), (0x7CA, 0x7EA), (0x7F4, 0x7F5), (0x7FA, 0x7FA),
  (0x800, 0x815), (0x81A, 0x81A), (0x824, 0x824), (0x828, 0x828), (0x840, 0x858), (0x860, 0x86A),
  (0x870, 0x887), (0x889, 0x88E), (0x8A0, 0x8C9), (0x904, 0x939), (0x93D, 0x93D), (0x950, 0x950),
  (0x958, 0x961), (0x971, 0x980), (0x985, 0x98C), (0x98F, 0x990), (0x993, 0x9A8), (0x9AA, 0x9B0),
  (0x9B2, 0x9B2), (0x9B6, 0x9B9), (0x9BD, 0x9BD), (0x9CE, 0x9CE), (0x9DC, 0x9DD), (0x9DF, 0x9E1),
  (0x9F0, 0x9F1), (0x9FC, 0x9FC), (0xA05, 0xA0A), (0xA0F, 0xA10), (0xA13, 0xA28), (0xA2A, 0xA30),
  (0xA32, 0xA33), (0xA35, 0xA36), (0xA38, 0xA39), (0xA59, 0xA5C), (0xA5E, 0xA5E), (0xA72, 0xA74),
  (0xA85, 0xA8D), (0xA8F, 0xA91), (0xA93, 0xAA8), (0xAAA, 0xAB0), (0xAB2, 0xAB3), (0xAB5, 0xAB9),
  (0xABD, 0xABD), (0xAD0, 0xAD0), (0xAE0, 0xAE1), (0xAF9, 0xAF9), (0xB05, 0xB0C), (0xB0F, 0xB10),
  (0xB13, 0xB28), (0xB2A, 0xB30), (0xB32, 0xB33), (0xB35, 0xB39), (0xB3D, 0xB3D), (0xB5C, 0xB5D),
  (0xB5F, 0xB61), (0xB71, 0xB71), (0xB83, 0xB83), (0xB85, 0xB8A), (0xB8E, 0xB90), (0xB92, 0xB95),
  (0xB99, 0xB9A), (0xB9C, 0xB9C), (0xB9E, 0xB9F), (0xBA3, 0xBA4), (0xBA8, 0xBAA), (0xBAE, 0xBB9),
  (0xBD0, 0xBD0), (0xC05, 0xC0C), (0xC0E, 0xC10), (0xC12, 0xC28), (0xC2A, 0xC39), (0xC3D, 0xC3D),
  (0xC58, 0xC5A), (0xC5D, 0xC5D), (0xC60, 0xC61), (0xC80, 0xC80), (0xC85, 0xC8C), (0xC8E, 0xC90),
  (0xC92, 0xCA8), (0xCAA, 0xCB3), (0xCB5, 0xCB9), (0xCBD, 0xCBD), (0xCDD, 0xCDE), (0xCE0, 0xCE1),
  (0xCF1, 0xCF2), (0xD04, 0xD0C), (0xD0E, 0xD10), (0xD12, 0xD3A), (0xD3D, 0xD3D), (0xD4E, 0xD4E),
  (0xD54, 0xD56), (0xD5F, 0xD61), (0xD7A, 0xD7F), (0xD85, 0xD96), (0xD9A, 0xDB1), (0xDB3, 0xDBB),
  (0xDBD, 0xDBD), (0xDC0, 0xDC6), (0xE01, 0xE30), (0xE32, 0xE33), (0xE40, 0xE46), (0xE81, 0xE82),
  (0xE84, 0xE84), (0xE86, 0xE8A), (0xE8C, 0xEA3), (0xEA5, 0xEA5), (0xEA7, 0xEB0), (0xEB2, 0xEB3),
  (0xEBD, 0xEBD), (0xEC0, 0xEC4), (0xEC6, 0xEC6), (0xEDC, 0xEDF), (0xF00, 0xF00), (0xF40, 0xF47),
  (0xF49, 0xF6C), (0xF88, 0xF8C), (0x1000, 0x102A), (0x103F, 0x103F), (0x1050, 0x1055),
  (0x105A, 0x105D), (0x1061, 0x1061), (0x1065, 0x1066), (0x106E, 0x1070), (0x1075, 0x1081),
  (0x108E, 0x108E), (0x10A0, 0x10C5), (0x10C7, 0x10C7), (0x10CD, 0x10CD), (0x10D0, 0x10FA),
  (0x10FC, 0x1248), (0x124A, 0x124D), (0x1250, 0x1256), (0x1258, 0x1258), (0x125A, 0x125D),
  (0x1260, 0x1288), (0x128A, 0x128D), (0x1290, 0x12B0), (0x12B2, 0x12B5), (0x12B8, 0x12BE),
  (0x12C0, 0x12C0), (0x12C2, 0x12C5), (0x12C8, 0x12D6), (0x12D8, 0x1310), (0x1312, 0x1315),
  (0x1318, 0x135A), (0x1380, 0x138F), (0x13A0, 0x13F5), (0x13F8, 0x13FD), (0x1401, 0x166C),
  (0x166F, 0x167F), (0x1681, 0x169A), (0x16A0, 0x16EA), (0x16F1, 0x16F8), (0x1700, 0x1711),
  (0x171F, 0x1731), (0x1740, 0x1751), (0x1760, 0x176C), (0x176E, 0x1770), (0x1780, 0x17B3),
  (0x17D7, 0x17D7), (0x17DC, 0x17DC), (0x1820, 0x1878), (0x1880, 0x1884), (0x1887, 0x18A8),
  (0x18AA, 0x18AA), (0x18B0, 0x18F5), (0x1900, 0x191E), (0x1950, 0x196D), (0x1970, 0x1974),
  (0x1980, 0x19AB), (0x19B0, 0x19C9), (0x1A00, 0x1A16), (0x1A20, 0x1A54), (0x1AA7, 0x1AA7),
  (0x1B05, 0x1B33), (0x1B45, 0x1B4C), (0x1B83, 0x1BA0), (0x1BAE, 0x1BAF), (0x1BBA, 0x1BE5),
  (0x1C00, 0x1C23), (0x1C4D, 0x1C4F), (0x1C5A, 0x1C7D), (0x1C80, 0x1C88), (0x1C90, 0x1CBA),
  (0x1CBD, 0x1CBF), (0x1CE9, 0x1CEC), (0x1CEE, 0x1CF3), (0x1CF5, 0x1CF6), (0x1CFA, 0x1CFA),
  (0x1D00, 0x1DBF), (0x1E00, 0x1F15), (0x1F18, 0x1F1D), (0x1F20, 0x1F45), (0x1F48, 0x1F4D),
  (0x1F50, 0x1F57), (0x1F59, 0x1F59), (0x1F5B, 0x1F5B), (0x1F5D, 0x1F5D), (0x1F5F, 0x1F7D),
  (0x1F80, 0x1FB4), (0x1FB6, 0x1FBC), (0x1FBE, 0x1FBE), (0x1FC2, 0x1FC4), (0x1FC6, 0x1FCC),
  (0x1FD0, 0x1FD3), (0x1FD6, 0x1FDB), (0x1FE0, 0x1FEC), (0x1FF2, 0x1FF4), (0x1FF6, 0x1FFC),
  (0x2071, 0x2071), (0x207F, 0x207F), (0x2090, 0x209C), (0x2102, 0x2102), (0x2107, 0x2107),
  (0x210A, 0x2113), (0x2115, 0x2115), (0x2119, 0x211D), (0x2124, 0x2124), (0x2126, 0x2126),
  (0x2128, 0x2128), (0x212A, 0x212D), (0x212F, 0x2139), (0x213C, 0x213F), (0x2145, 0x2149),
  (0x214E, 0x214E), (0x2183, 0x2184), (0x2C00, 0x2CE4), (0x2CEB, 0x2CEE), (0x2CF2, 0x2CF3),
  (0x2D00, 0x2D25), (0x2D27, 0x2D27), (0x2D2D, 0x2D2D), (0x2D30, 0x2D67), (0x2D6F, 0x2D6F),
  (0x2D80, 0x2D96), (0x2DA0, 0x2DA6), (0x2DA8, 0x2DAE), (0x2DB0, 0x2DB6), (0x2DB8, 0x2DBE),
  (0x2DC0, 0x2DC6), (0x2DC8, 0x2DCE), (0x2DD0, 0x2DD6), (0x2DD8, 0x2DDE), (0x2E2F, 0x2E2F),
  (0x3005, 0x3006), (0x3031, 0x3035), (0x303B, 0x303C), (0x3041, 0x3096), (0x309D, 0x309F),
  (0x30A1, 0x30FA), (0x30FC, 0x30FF), (0x3105, 0x312F), (0x3131, 0x318E), (0x31A0, 0x31BF),
  (0x31F0, 0x31FF), (0x3400, 0x4DBF), (0x4E00, 0xA48C), (0xA4D0, 0xA4FD), (0xA500, 0xA60C),
  (0xA610, 0xA61F), (0xA62A, 0xA62B), (0xA640, 0xA66E), (0xA67F, 0xA69D), (0xA6A0, 0xA6E5),
  (0xA717, 0xA71F), (0xA722, 0xA788), (0xA78B, 0xA7CA), (0xA7D0, 0xA7D1), (0xA7D3, 0xA7D3),
  (0xA7D5, 0xA7D9), (0xA7F2, 0xA801), (0xA803, 0xA805), (0xA807, 0xA80A), (0xA80C, 0xA822),
  (0xA840, 0xA873), (0xA882, 0xA8B3), (0xA8F2, 0xA8F7), (0xA8FB, 0xA8FB), (0xA8FD, 0xA8FE),
  (0xA90A, 0xA925), (0xA930, 0xA946), (0xA960, 0xA97C), (0xA984, 0xA9B2), (0xA9CF, 0xA9CF),
  (0xA9E0, 0xA9E4), (0xA9E6, 0xA9EF), (0xA9FA, 0xA9FE), (0xAA00, 0xAA28), (0xAA40, 0xAA42),
  (0xAA44, 0xAA4B), (0xAA60, 0xAA76), (0xAA7A, 0xAA7A), (0xAA7E, 0xAAAF), (0xAAB1, 0xAAB1),
  (0xAAB5, 0xAAB6), (0xAAB9, 0xAABD), (0xAAC0, 0xAAC0), (0xAAC2, 0xAAC2), (0xAADB, 0xAADD),
  (0xAAE0, 0xAAEA), (0xAAF2, 0xAAF4), (0xAB01, 0xAB06), (0xAB09, 0xAB0E), (0xAB11, 0xAB16),
  (0xAB20, 0xAB26), (0xAB28, 0xAB2E), (0xAB30, 0xAB5A), (0xAB5C, 0xAB69), (0xAB70, 0xABE2),
  (0xAC00, 0xD7A3), (0xD7B0, 0xD7C6), (0xD7CB, 0xD7FB), (0xF900, 0xFA6D), (0xFA70, 0xFAD9),
  (0xFB00, 0xFB06), (0xFB13, 0xFB17), (0xFB1D, 0xFB1D), (0xFB1F, 0xFB28), (0xFB2A, 0xFB36),
  (0xFB38, 0xFB3C), (0xFB3E, 0xFB3E), (0xFB40, 0xFB41), (0xFB43, 0xFB44), (0xFB46, 0xFBB1),
  (0xFBD3, 0xFD3D), (0xFD50, 0xFD8F), (0xFD92, 0xFDC7), (0xFDF0, 0xFDFB), (0xFE70, 0xFE74),
  (0xFE76, 0xFEFC), (0xFF21, 0xFF3A), (0xFF41, 0xFF5A), (0xFF66, 0xFFBE), (0xFFC2, 0xFFC7),
  (0xFFCA, 0xFFCF), (0xFFD2, 0xFFD7), (0xFFDA, 0xFFDC), (0x10000, 0x1000B), (0x1000D, 0x10026),
  (0x10028, 0x1003A), (0x1003C, 0x1003D), (0x1003F, 0x1004D), (0x10050, 0x1005D),
  (0x10080, 0x100FA), (0x10280, 0x1029C), (0x102A0, 0x102D0), (0x10300, 0x1031F),
  (0x1032D, 0x10340), (0x10342, 0x10349), (0x10350, 0x10375), (0x10380, 0x1039D),
  (0x103A0, 0x103C3), (0x103C8, 0x103CF), (0x10400, 0x1049D), (0x104B0, 0x104D3),
  (0x104D8, 0x104FB), (0x10500, 0x10527), (0x10530, 0x10563), (0x10570, 0x1057A),
  (0x1057C, 0x1058A), (0x1058C, 0x10592), (0x10594, 0x10595), (0x10597, 0x105A1),
  (0x105A3, 0x105B1), (0x105B3, 0x105B9), (0x105BB, 0x105BC), (0x10600, 0x10736),
  (0x10740, 0x10755), (0x10760, 0x10767), (0x10780, 0x10785), (0x10787, 0x107B0),
  (0x107B2, 0x107BA), (0x10800, 0x10805), (0x10808, 0x10808), (0x1080A, 0x10835),
  (0x10837, 0x10838), (0x1083C, 0x1083C), (0x1083F, 0x10855), (0x10860, 0x10876),
  (0x10880, 0x1089E), (0x108E0, 0x108F2), (0x108F4, 0x108F5), (0x10900, 0x10915),
  (0x10920, 0x10939), (0x10980, 0x109B7), (0x109BE, 0x109BF), (0x10A00, 0x10A00),
  (0x10A10, 0x10A13), (0x10A15, 0x10A17), (0x10A19, 0x10A35), (0x10A60, 0x10A7C),
  (0x10A80, 0x10A9C), (0x10AC0, 0x10AC7), (0x10AC9, 0x10AE4), (0x10B00, 0x10B35),
  (0x10B40, 0x10B55), (0x10B60, 0x10B72), (0x10B80, 0x10B91), (0x10C00, 0x10C48),
  (0x10C80, 0x10CB2), (0x10CC0, 0x10CF2), (0x10D00, 0x10D23), (0x10E80, 0x10EA9),
  (0x10EB0, 0x10EB1), (0x10F00, 0x10F1C), (0x10F27, 0x10F27), (0x10F30, 0x10F45),
  (0x10F70, 0x10F81), (0x10FB0, 0x10FC4), (0x10FE0, 0x10FF6), (0x11003, 0x11037),
  (0x11071, 0x11072), (0x11075, 0x11075), (0x11083, 0x110AF), (0x110D0, 0x110E8),
  (0x11103, 0x11126), (0x11144, 0x11144), (0x11147, 0x11147), (0x11150, 0x11172),
  (0x11176, 0x11176), (0x11183, 0x111B2), (0x111C1, 0x111C4), (0x111DA, 0x111DA),
  (0x111DC, 0x111DC), (0x11200, 0x11211), (0x11213, 0x1122B), (0x11280, 0x11286),
  (0x11288, 0x11288), (0x1128A, 0x1128D), (0x1128F, 0x1129D), (0x1129F, 0x112A8),
  (0x112B0, 0x112DE), (0x11305, 0x1130C), (0x1130F, 0x11310), (0x11313, 0x11328),
  (0x1132A, 0x11330), (0x11332, 0x11333), (0x11335, 0x11339), (0x1133D, 0x1133D),
  (0x11350, 0x11350), (0x1135D, 0x11361), (0x11400, 0x11434), (0x11447, 0x1144A),
  (0x1145F, 0x11461), (0x11480, 0x114AF), (0x114C4, 0x114C5), (0x114C7, 0x114C7),
  (0x11580, 0x115AE), (0x115D8, 0x115DB), (0x11600, 0x1162F), (0x11644, 0x11644),
  (0x11680, 0x116AA), (0x116B8, 0x116B8), (0x11700, 0x1171A), (0x11740, 0x11746),
  (0x11800, 0x1182B), (0x118A0, 0x118DF), (0x118FF, 0x11906), (0x11909, 0x11909),
  (0x1190C, 0x11913), (0x11915, 0x11916), (0x11918, 0x1192F), (0x1193F, 0x1193F),
  (0x11941, 0x11941), (0x119A0, 0x119A7), (0x119AA, 0x119D0), (0x119E1, 0x119E1),
  (0x119E3, 0x119E3), (0x11A00, 0x11A00), (0x11A0B, 0x11A32), (0x11A3A, 0x11A3A),
  (0x11A50, 0x11A50), (0x11A5C, 0x11A89), (0x11A9D, 0x11A9D), (0x11AB0, 0x11AF8),
  (0x11C00, 0x11C08), (0x11C0A, 0x11C2E), (0x11C40, 0x11C40), (0x11C72, 0x11C8F),
  (0x11D00, 0x11D06), (0x11D08, 0x11D09), (0x11D0B, 0x11D30), (0x11D46, 0x11D46),
  (0x11D60, 0x11D65), (0x11D67, 0x11D68), (0x11D6A, 0x11D89), (0x11D98, 0x11D98),
  (0x11EE0, 0x11EF2), (0x11FB0, 0x11FB0), (0x12000, 0x12399), (0x12480, 0x12543),
  (0x12F90, 0x12FF0), (0x13000, 0x1342E), (0x14400, 0x14646), (0x16800, 0x16A38),
  (0x16A40, 0x16A5E), (0x16A70, 0x16ABE), (0x16AD0, 0x16AED), (0x16B00, 0x16B2F),
  (0x16B40, 0x16B43), (0x16B63, 0x16B77), (0x16B7D, 0x16B8F), (0x16E40, 0x16E7F),
  (0x16F00, 0x16F4A), (0x16F50, 0x16F50), (0x16F93, 0x16F9F), (0x16FE0, 0x16FE1),
  (0x16FE3, 0x16FE3), (0x17000, 0x187F7), (0x18800, 0x18CD5), (0x18D00, 0x18D08),
  (0x1AFF0, 0x1AFF3), (0x1AFF5, 0x1AFFB), (0x1AFFD, 0x1AFFE), (0x1B000, 0x1B122),
  (0x1B150, 0x1B152), (0x1B164, 0x1B167), (0x1B170, 0x1B2FB), (0x1BC00, 0x1BC6A),
  (0x1BC70, 0x1BC7C), (0x1BC80, 0x1BC88), (0x1BC90, 0x1BC99), (0x1D400, 0x1D454),
  (0x1D456, 0x1D49C), (0x1D49E, 0x1D49F), (0x1D4A2, 0x1D4A2), (0x1D4A5, 0x1D4A6),
  (0x1D4A9, 0x1D4AC), (0x1D4AE, 0x1D4B9), (0x1D4BB, 0x1D4BB), (0x1D4BD, 0x1D4C3),
  (0x1D4C5, 0x1D505), (0x1D507, 0x1D50A), (0x1D50D, 0x1D514), (0x1D516, 0x1D51C),
  (0x1D51E, 0x1D539), (0x1D53B, 0x1D53E), (0x1D540, 0x1D544), (0x1D546, 0x1D546),
  (0x1D54A, 0x1D550), (0x1D552, 0x1D6A5), (0x1D6A8, 0x1D6C0), (0x1D6C2, 0x1D6DA),
  (0x1D6DC, 0x1D6FA), (0x1D6FC, 0x1D714), (0x1D716, 0x1D734), (0x1D736, 0x1D74E),
  (0x1D750, 0x1D76E), (0x1D770, 0x1D788), (0x1D78A, 0x1D7A8), (0x1D7AA, 0x1D7C2),
  (0x1D7C4, 0x1D7CB), (0x1DF00, 0x1DF1E), (0x1E100, 0x1E12C), (0x1E137, 0x1E13D),
  (0x1E14E, 0x1E14E), (0x1E290, 0x1E2AD), (0x1E2C0, 0x1E2EB), (0x1E7E0, 0x1E7E6),
  (0x1E7E8, 0x1E7EB), (0x1E7ED, 0x1E7EE), (0x1E7F0, 0x1E7FE), (0x1E800, 0x1E8C4),
  (0x1E900, 0x1E943), (0x1E94B, 0x1E94B), (0x1EE00, 0x1EE03), (0x1EE05, 0x1EE1F),
  (0x1EE21, 0x1EE22), (0x1EE24, 0x1EE24), (0x1EE27, 0x1EE27), (0x1EE29, 0x1EE32),
  (0x1EE34, 0x1EE37), (0x1EE39, 0x1EE39), (0x1EE3B, 0x1EE3B), (0x1EE42, 0x1EE42),
  (0x1EE47, 0x1EE47), (0x1EE49, 0x1EE49), (0x1EE4B, 0x1EE4B), (0x1EE4D, 0x1EE4F),
  (0x1EE51, 0x1EE52), (0x1EE54, 0x1EE54), (0x1EE57, 0x1EE57), (0x1EE59, 0x1EE59),
  (0x1EE5B, 0x1EE5B), (0x1EE5D, 0x1EE5D), (0x1EE5F, 0x1EE5F), (0x1EE61, 0x1EE62),
  (0x1EE64, 0x1EE64), (0x1EE67, 0x1EE6A), (0x1EE6C, 0x1EE72), (0x1EE74, 0x1EE77),
  (0x1EE79, 0x1EE7C), (0x1EE7E, 0x1EE7E), (0x1EE80, 0x1EE89), (0x1EE8B, 0x1EE9B),
  (0x1EEA1, 0x1EEA3), (0x1EEA5, 0x1EEA9), (0x1EEAB, 0x1EEBB), (0x20000, 0x2A6DF),
  (0x2A700, 0x2B738), (0x2B740, 0x2B81D), (0x2B820, 0x2CEA1), (0x2CEB0, 0x2EBE0),
  (0x2F800, 0x2FA1D), (0x30000, 0x3134A)]

/-- Range table unicode.Digit (general category Nd) above Latin-1. -/
def unicodeDigitRanges : List (Nat × Nat) := [
  (0x660, 0x669), (0x6F0, 0x6F9), (0x7C0, 0x7C9), (0x966, 0x96F), (0x9E6, 0x9EF), (0xA66, 0xA6F),
  (0xAE6, 0xAEF), (0xB66, 0xB6F), (0xBE6, 0xBEF), (0xC66, 0xC6F), (0xCE6, 0xCEF), (0xD66, 0xD6F),
  (0xDE6, 0xDEF), (0xE50, 0xE59), (0xED0, 0xED9), (0xF20, 0xF29), (0x1040, 0x1049),
  (0x1090, 0x1099), (0x17E0, 0x17E9), (0x1810, 0x1819), (0x1946, 0x194F), (0x19D0, 0x19D9),
  (0x1A80, 0x1A89), (0x1A90, 0x1A99), (0x1B50, 0x1B59), (0x1BB0, 0x1BB9), (0x1C40, 0x1C49),
  (0x1C50, 0x1C59), (0xA620, 0xA629), (0xA8D0, 0xA8D9), (0xA900, 0xA909), (0xA9D0, 0xA9D9),
  (0xA9F0, 0xA9F9), (0xAA50, 0xAA59), (0xABF0, 0xABF9), (0xFF10, 0xFF19), (0x104A0, 0x104A9),
  (0x10D30, 0x10D39), (0x11066, 0x1106F), (0x110F0, 0x110F9), (0x11136, 0x1113F),
  (0x111D0, 0x111D9), (0x112F0, 0x112F9), (0x11450, 0x11459), (0x114D0, 0x114D9),
  (0x11650, 0x11659), (0x116C0, 0x116C9), (0x11730, 0x11739), (0x118E0, 0x118E9),
  (0x11950, 0x11959), (0x11C50, 0x11C59), (0x11D50, 0x11D59), (0x11DA0, 0x11DA9),
  (0x16A60, 0x16A69), (0x16AC0, 0x16AC9), (0x16B50, 0x16B59), (0x1D7CE, 0x1D7FF),
  (0x1E140, 0x1E149), (0x1E2F0, 0x1E2F9), (0x1E950, 0x1E959), (0x1FBF0, 0x1FBF9)]

/-- Lower-case column of unicode.CaseRanges above ASCII: an entry (lo, hi, stride, tgt) sends
the code points lo, lo + stride, ... up to hi to tgt, tgt + stride, ... -/
def unicodeLowerRanges : List (Nat × Nat × Nat × Nat) := [
  (0xC0, 0xD6, 1, 0xE0), (0xD8, 0xDE, 1, 0xF8), (0x100, 0x12E, 2, 0x101),
  (0x130, 0x130, 1, 0x69), (0x132, 0x136, 2, 0x133), (0x139, 0x147, 2, 0x13A),
  (0x14A, 0x176, 2, 0x14B), (0x178, 0x178, 1, 0xFF), (0x179, 0x17D, 2, 0x17A),
  (0x181, 0x181, 1, 0x253), (0x182, 0x184, 2, 0x183), (0x186, 0x186, 1, 0x254),
  (0x187, 0x187, 1, 0x188), (0x189, 0x18A, 1, 0x256), (0x18B, 0x18B, 1, 0x18C),
  (0x18E, 0x18E, 1, 0x1DD), (0x18F, 0x18F, 1, 0x259), (0x190, 0x190, 1, 0x25B),
  (0x191, 0x191, 1, 0x192), (0x193, 0x193, 1, 0x260), (0x194, 0x194, 1, 0x263),
  (0x196, 0x196, 1, 0x269), (0x197, 0x197, 1, 0x268), (0x198, 0x198, 1, 0x199),
  (0x19C, 0x19C, 1, 0x26F), (0x19D, 0x19D, 1, 0x272), (0x19F, 0x19F, 1, 0x275),
  (0x1A0, 0x1A4, 2, 0x1A1), (0x1A6, 0x1A6, 1, 0x280), (0x1A7, 0x1A7, 1, 0x1A8),
  (0x1A9, 0x1A9, 1, 0x283), (0x1AC, 0x1AC, 1, 0x1AD), (0x1AE, 0x1AE, 1, 0x288),
  (0x1AF, 0x1AF, 1, 0x1B0), (0x1B1, 0x1B2, 1, 0x28A), (0x1B3, 0x1B5, 2, 0x1B4),
  (0x1B7, 0x1B7, 1, 0x292), (0x1B8, 0x1B8, 1, 0x1B9), (0x1BC, 0x1BC, 1, 0x1BD),
  (0x1C4, 0x1C4, 1, 0x1C6), (0x1C5, 0x1C5, 1, 0x1C6), (0x1C7, 0x1C7, 1, 0x1C9),
  (0x1C8, 0x1C8, 1, 0x1C9), (0x1CA, 0x1CA, 1, 0x1CC), (0x1CB, 0x1DB, 2, 0x1CC),
  (0x1DE, 0x1EE, 2, 0x1DF), (0x1F1, 0x1F1, 1, 0x1F3), (0x1F2, 0x1F4, 2, 0x1F3),
  (0x1F6, 0x1F6, 1, 0x195), (0x1F7, 0x1F7, 1, 0x1BF), (0x1F8, 0x21E, 2, 0x1F9),
  (0x220, 0x220, 1, 0x19E), (0x222, 0x232, 2, 0x223), (0x23A, 0x23A, 1, 0x2C65),
  (0x23B, 0x23B, 1, 0x23C), (0x23D, 0x23D, 1, 0x19A), (0x23E, 0x23E, 1, 0x2C66),
  (0x241, 0x241, 1, 0x242), (0x243, 0x243, 1, 0x180), (0x244, 0x244, 1, 0x289),
  (0x245, 0x245, 1, 0x28C), (0x246, 0x24E, 2, 0x247), (0x370, 0x372, 2, 0x371),
  (0x376, 0x376, 1, 0x377), (0x37F, 0x37F, 1, 0x3F3), (0x386, 0x386, 1, 0x3AC),
  (0x388, 0x38A, 1, 0x3AD), (0x38C, 0x38C, 1, 0x3CC), (0x38E, 0x38F, 1, 0x3CD),
  (0x391, 0x3A1, 1, 0x3B1), (0x3A3, 0x3AB, 1, 0x3C3), (0x3CF, 0x3CF, 1, 0x3D7),
  (0x3D8, 0x3EE, 2, 0x3D9), (0x3F4, 0x3F4, 1, 0x3B8), (0x3F7, 0x3F7, 1, 0x3F8),
  (0x3F9, 0x3F9, 1, 0x3F2), (0x3FA, 0x3FA, 1, 0x3FB), (0x3FD, 0x3FF, 1, 0x37B),
  (0x400, 0x40F, 1, 0x450), (0x410, 0x42F, 1, 0x430), (0x460, 0x480, 2, 0x461),
  (0x48A, 0x4BE, 2, 0x48B), (0x4C0, 0x4C0, 1, 0x4CF), (0x4C1, 0x4CD, 2, 0x4C2),
  (0x4D0, 0x52E, 2, 0x4D1), (0x531, 0x556, 1, 0x561), (0x10A0, 0x10C5, 1, 0x2D00),
  (0x10C7, 0x10C7, 1, 0x2D27), (0x10CD, 0x10CD, 1, 0x2D2D), (0x13A0, 0x13EF, 1, 0xAB70),
  (0x13F0, 0x13F5, 1, 0x13F8), (0x1C90, 0x1CBA, 1, 0x10D0), (0x1CBD, 0x1CBF, 1, 0x10FD),
  (0x1E00, 0x1E94, 2, 0x1E01), (0x1E9E, 0x1E9E, 1, 0xDF), (0x1EA0, 0x1EFE, 2, 0x1EA1),
  (0x1F08, 0x1F0F, 1, 0x1F00), (0x1F18, 0x1F1D, 1, 0x1F10), (0x1F28, 0x1F2F, 1, 0x1F20),
  (0x1F38, 0x1F3F, 1, 0x1F30), (0x1F48, 0x1F4D, 1, 0x1F40), (0x1F59, 0x1F5F, 2, 0x1F51),
  (0x1F68, 0x1F6F, 1, 0x1F60), (0x1F88, 0x1F8F, 1, 0x1F80), (0x1F98, 0x1F9F, 1, 0x1F90),
  (0x1FA8, 0x1FAF, 1, 0x1FA0), (0x1FB8, 0x1FB9, 1, 0x1FB0), (0x1FBA, 0x1FBB, 1, 0x1F70),
  (0x1FBC, 0x1FBC, 1, 0x1FB3), (0x1FC8, 0x1FCB, 1, 0x1F72), (0x1FCC, 0x1FCC, 1, 0x1FC3),
  (0x1FD8, 0x1FD9, 1, 0x1FD0), (0x1FDA, 0x1FDB, 1, 0x1F76), (0x1FE8, 0x1FE9, 1, 0x1FE0),
  (0x1FEA, 0x1FEB, 1, 0x1F7A), (0x1FEC, 0x1FEC, 1, 0x1FE5), (0x1FF8, 0x1FF9, 1, 0x1F78),
  (0x1FFA, 0x1FFB, 1, 0x1F7C), (0x1FFC, 0x1FFC, 1, 0x1FF3), (0x2126, 0x2126, 1, 0x3C9),
  (0x212A, 0x212A, 1, 0x6B), (0x212B, 0x212B, 1, 0xE5), (0x2132, 0x2132, 1, 0x214E),
  (0x2160, 0x216F, 1, 0x2170), (0x2183, 0x2183, 1, 0x2184), (0x24B6, 0x24CF, 1, 0x24D0),
  (0x2C00, 0x2C2F, 1, 0x2C30), (0x2C60, 0x2C60, 1, 0x2C61), (0x2C62, 0x2C62, 1, 0x26B),
  (0x2C63, 0x2C63, 1, 0x1D7D), (0x2C64, 0x2C64, 1, 0x27D), (0x2C67, 0x2C6B, 2, 0x2C68),
  (0x2C6D, 0x2C6D, 1, 0x251), (0x2C6E, 0x2C6E, 1, 0x271), (0x2C6F, 0x2C6F, 1, 0x250),
  (0x2C70, 0x2C70, 1, 0x252), (0x2C72, 0x2C72, 1, 0x2C73), (0x2C75, 0x2C75, 1, 0x2C76),
  (0x2C7E, 0x2C7F, 1, 0x23F), (0x2C80, 0x2CE2, 2, 0x2C81), (0x2CEB, 0x2CED, 2, 0x2CEC),
  (0x2CF2, 0x2CF2, 1, 0x2CF3), (0xA640, 0xA66C, 2, 0xA641), (0xA680, 0xA69A, 2, 0xA681),
  (0xA722, 0xA72E, 2, 0xA723), (0xA732, 0xA76E, 2, 0xA733), (0xA779, 0xA77B, 2, 0xA77A),
  (0xA77D, 0xA77D, 1, 0x1D79), (0xA77E, 0xA786, 2, 0xA77F), (0xA78B, 0xA78B, 1, 0xA78C),
  (0xA78D, 0xA78D, 1, 0x265), (0xA790, 0xA792, 2, 0xA791), (0xA796, 0xA7A8, 2, 0xA797),
  (0xA7AA, 0xA7AA, 1, 0x266), (0xA7AB, 0xA7AB, 1, 0x25C), (0xA7AC, 0xA7AC, 1, 0x261),
  (0xA7AD, 0xA7AD, 1, 0x26C), (0xA7AE, 0xA7AE, 1, 0x26A), (0xA7B0, 0xA7B0, 1, 0x29E),
  (0xA7B1, 0xA7B1, 1, 0x287), (0xA7B2, 0xA7B2, 1, 0x29D), (0xA7B3, 0xA7B3, 1, 0xAB53),
  (0xA7B4, 0xA7C2, 2, 0xA7B5), (0xA7C4, 0xA7C4, 1, 0xA794), (0xA7C5, 0xA7C5, 1, 0x282),
  (0xA7C6, 0xA7C6, 1, 0x1D8E), (0xA7C7, 0xA7C9, 2, 0xA7C8), (0xA7D0, 0xA7D0, 1, 0xA7D1),
  (0xA7D6, 0xA7D8, 2, 0xA7D7), (0xA7F5, 0xA7F5, 1, 0xA7F6), (0xFF21, 0xFF3A, 1, 0xFF41),
  (0x10400, 0x10427, 1, 0x10428), (0x104B0, 0x104D3, 1, 0x104D8), (0x10570, 0x1057A, 1, 0x10597),
  (0x1057C, 0x1058A, 1, 0x105A3), (0x1058C, 0x10592, 1, 0x105B3), (0x10594, 0x10595, 1, 0x105BB),
  (0x10C80, 0x10CB2, 1, 0x10CC0), (0x118A0, 0x118BF, 1, 0x118C0), (0x16E40, 0x16E5F, 1, 0x16E60),
  (0x1E900, 0x1E921, 1, 0x1E922)]

/-- Go unicode.IsSpace: the Latin-1 switch, then the White_Space table. -/
def unicodeIsSpace (r : Char) : Bool :=
  let n := r.toNat
  if n ≤ 0xFF then
    n == 0x09 || n == 0x0A || n == 0x0B || n == 0x0C || n == 0x0D || n == 0x20 || n == 0x85
      || n == 0xA0
  else inRanges unicodeWhiteSpaceRanges n

/-- Go unicode.IsLetter: the Latin-1 property table, then the Letter table. -/
def unicodeIsLetter (r : Char) : Bool :=
  let n := r.toNat
  if n ≤ 0xFF then
    (decide (0x41 ≤ n) && decide (n ≤ 0x5A)) || (decide (0x61 ≤ n) && decide (n ≤ 0x7A))
      || n == 0xAA || n == 0xB5 || n == 0xBA
      || (decide (0xC0 ≤ n) && decide (n ≤ 0xD6)) || (decide (0xD8 ≤ n) && decide (n ≤ 0xF6))
      || decide (0xF8 ≤ n)
  else inRanges unicodeLetterRanges n

/-- Go unicode.IsDigit: ASCII digits in Latin-1, then the Digit table. -/
def unicodeIsDigit (r : Char) : Bool :=
  let n := r.toNat
  if n ≤ 0xFF then decide (0x30 ≤ n) && decide (n ≤ 0x39)
  else inRanges unicodeDigitRanges n

/-- Search of the lower-case column of unicode.CaseRanges; a code point in no entry maps to
itself. -/
def lowerLookup : List (Nat × Nat × Nat × Nat) → Nat → Nat
  | [], n => n
  | (lo, hi, stride, tgt) :: rest, n =>
    if decide (lo ≤ n) && decide (n ≤ hi) && (n - lo) % stride == 0 then tgt + (n - lo)
    else lowerLookup rest n

/-- Go unicode.ToLower: the ASCII fast path, then unicode.To(LowerCase, r). -/
def unicodeToLower (r : Char) : Char :=
  let n := r.toNat
  if n ≤ 0x7F then
    if decide (0x41 ≤ n) && decide (n ≤ 0x5A) then Char.ofNat (n + 0x20) else r
  else Char.ofNat (lowerLookup unicodeLowerRanges n)

/-! ## Standard library: package strings -/

/-- Go strings.TrimSpace: drops the leading and the trailing runes for which unicode.IsSpace
holds. -/
def stringsTrimSpace (s : GoString) : GoString :=
  (s.dropWhile unicodeIsSpace).rdropWhile unicodeIsSpace

/-- Go strings.Split(s, sep) for a separator of one rune: the substrings between the separators,
always at least one. -/
def stringsSplit (sep : Char) : GoString → List GoString
  | [] => [[]]
  | c :: cs =>
    if c = sep then [] :: stringsSplit sep cs
    else
      match stringsSplit sep cs with
      | [] => [[c]]
      | h :: t => (c :: h) :: t

/-- Go strings.ToLower: unicode.ToLower on every rune. -/
def stringsToLower (s : GoString) : GoString := s.map unicodeToLower

/-! ## getCustomAPIImportPathAndIdent -/

/-- The two errors built with fmt.Errorf in getCustomAPIImportPathAndIdent; each quotes the
input string m. -/
inductive ImportError where
  /-- custom import "m" path is empty -/
  | pathIsEmpty (m : GoString)
  /-- custom import "m" identifier is empty, remove "=" from passed string -/
  | identifierIsEmpty (m : GoString)
  deriving DecidableEq, Repr

/-- The loop `for i, e := range sm` of getCustomAPIImportPathAndIdent, from index i on, with
the current values of the named results p and id. -/
def splitLoop : Nat → List GoString → GoString × GoString → GoString × GoString
  | _, [], acc => acc
  | i, e :: rest, (p, id) =>
    if i = 0 then splitLoop (i + 1) rest (stringsTrimSpace e, id)
    else if i = 1 then splitLoop (i + 1) rest (p, stringsTrimSpace e)
    else splitLoop (i + 1) rest (p, id)

/-- The condition under which the sanitizing loop writes a rune to the builder. -/
def identRune (r : Char) : Bool :=
  unicodeIsDigit r || unicodeIsLetter r || r == '_'

/-- The loop `for _, r := range id` writing to the strings.Builder idb, whose contents so far
are the first argument.  Builder.WriteRune never returns an error, so the loop always runs to
the end. -/
def builderLoop (idb : GoString) : GoString → GoString
  | [] => idb
  | r :: rest => if identRune r then builderLoop (idb ++ [r]) rest else builderLoop idb rest

/-- The identifier derived from a path when none was given: the last two segments, or the only
one, lower-cased. -/
def derivedIdent (p : GoString) : GoString :=
  let sp := stringsSplit '/' p
  let id :=
    if sp.length > 1 then sp.getD (sp.length - 2) [] ++ sp.getD (sp.length - 1) []
    else sp.getD 0 []
  stringsToLower id

/-- Go getCustomAPIImportPathAndIdent(m), returning (p, id, err). -/
def getCustomAPIImportPathAndIdent (m : GoString) : GoString × GoString × Option ImportError :=
  let sm := stringsSplit '=' m
  let (p, id) := splitLoop 0 sm ([], [])
  if p = [] then ([], [], some (ImportError.pathIsEmpty m))
  else if id = [] then
    if sm.length = 2 then ([], [], some (ImportError.identifierIsEmpty m))
    else (p, builderLoop [] (derivedIdent p), none)
  else (p, builderLoop [] id, none)

/-! ## Standard library: packages path and path/filepath -/

/-- Go strings.Join(elems, "/"). -/
def joinSlash : List GoString → GoString
  | [] => []
  | [e] => e
  | e :: rest => e ++ '/' :: joinSlash rest

/-- The pass of path.Clean over the path elements, with the elements kept so far in reverse
order: a ".." removes the element before it, is dropped at the root, and is kept at the start
of a relative path. -/
def cleanLoop (rooted : Bool) : List GoString → List GoString → List GoString
  | [], out => out.reverse
  | e :: rest, out =>
    if e = ['.', '.'] then
      match out with
      | [] => if rooted then cleanLoop rooted rest [] else cleanLoop rooted rest [e]
      | top :: below =>
        if top = ['.', '.'] then cleanLoop rooted rest (e :: out)
        else cleanLoop rooted rest below
    else cleanLoop rooted rest (e :: out)

/-- Go path.Clean, by path elements: empty and "." elements are dropped, ".." elements are
resolved, and the empty result is ".". -/
def pathClean (s : GoString) : GoString :=
  let rooted := s.head? = some '/'
  let elems := (stringsSplit '/' s).filter fun e => !(e = [] || e = ['.'])
  let out := joinSlash (cleanLoop rooted elems [])
  if rooted then '/' :: out else if out = [] then ['.'] else out

/-- Go path.Join: the non-empty elements joined with slashes and cleaned; the empty string when
there is none.  On a Unix target filepath.Join is the same function. -/
def pathJoin (elem : List GoString) : GoString :=
  let parts := elem.filter fun e => !(e = [])
  if parts = [] then [] else pathClean (joinSlash parts)

/-! ## Go maps from string to string -/

/-- The assignment m[k] = v on the entries of a map: the value of an existing key is replaced,
a new key is added. -/
def setEntry (k v : GoString) : List (GoString × GoString) → List (GoString × GoString)
  | [] => [(k, v)]
  | (k1, v1) :: rest => if k1 = k then (k, v) :: rest else (k1, v1) :: setEntry k v rest

/-- The contents of a Go map[string]string: its entries, no key twice.  The order of the list
stands for the order in which a range statement visits the entries. -/
structure GoMap where
  /-- The key and value pairs. -/
  entries : List (GoString × GoString)
  /-- Keys are unique. -/
  nodup : (entries.map Prod.fst).Nodup

/-- The index expression m[k] with the comma-ok form: the value bound to k, if any. -/
def GoMap.get? (m : GoMap) (k : GoString) : Option GoString :=
  (m.entries.find? fun e => e.1 = k).map Prod.snd

/-- The assignment m[k] = v. -/
def GoMap.set (m : GoMap) (k v : GoString) : GoMap where
  entries := setEntry k v m.entries
  nodup := by
    have key : ∀ l : List (GoString × GoString),
        (∀ x, x ∈ (setEntry k v l).map Prod.fst → x ∈ l.map Prod.fst ∨ x = k) ∧
        ((l.map Prod.fst).Nodup → ((setEntry k v l).map Prod.fst).Nodup) := by
      intro l
      induction l with
      | nil => simp [setEntry]
      | cons e rest ih =>
        obtain ⟨k1, v1⟩ := e
        by_cases h : k1 = k
        · subst h
          simp only [setEntry, if_true, List.map_cons]
          exact ⟨fun x hx => Or.inl hx, id⟩
        · simp only [setEntry, if_neg h, List.map_cons, List.mem_cons, List.nodup_cons]
          refine ⟨fun x hx => ?_, fun hnd => ⟨fun hmem => ?_, ih.2 hnd.2⟩⟩
          · rcases hx with hx | hx
            · exact Or.inl (Or.inl hx)
            · rcases ih.1 x hx with h1 | h1
              · exact Or.inl (Or.inr h1)
              · exact Or.inr h1
          · rcases ih.1 k1 hmem with h1 | h1
            · exact hnd.1 h1
            · exact h h1
    exact (key m.entries).2 m.nodup

/-! ## ControllerKind -/

/-- The fields of scaffold.Resource (declared in resource.go) that GetInput and setImports
read. -/
structure Resource where
  /-- Lower-case kind of the resource. -/
  LowerKind : GoString
  /-- Version of the resource's API. -/
  Version : GoString
  /-- Group of the resource's API as a Go import name. -/
  GoImportGroup : GoString
  deriving DecidableEq, Repr

/-- Go input.IfExistsAction. -/
inductive IfExistsAction where
  | Overwrite
  | Error
  | Skip
  deriving DecidableEq, Repr

/-- The value of Input.TemplateBody: the empty string or the constant controllerKindTemplate,
whose text plays no part in import resolution. -/
inductive TemplateBody where
  | empty
  | controllerKindTemplate
  deriving DecidableEq, Repr

/-- The fields of input.Input that GetInput and setImports read or write. -/
structure Input where
  /-- Relative path of the file to scaffold. -/
  Path : GoString
  /-- What to do when the file exists. -/
  IfExistsAction : IfExistsAction
  /-- The template of the file. -/
  TemplateBody : TemplateBody
  /-- Go import path of the project. -/
  Repo : GoString
  deriving DecidableEq, Repr

/-- The zero value input.Input{}. -/
def Input.zero : Input :=
  { Path := [], IfExistsAction := IfExistsAction.Overwrite, TemplateBody := TemplateBody.empty,
    Repo := [] }

/-- A value of a map type is a reference: nil, or the map object that the package variable
controllerKindImports is initialised with, the only map object this file creates. -/
inductive MapRef where
  | nil
  | controllerKindImports
  deriving DecidableEq, Repr

/-- The state of the process that outlives a call: the contents of the map object behind
controllerKindImports. -/
structure Process where
  /-- Contents of the map object. -/
  controllerKindImports : GoMap

/-- The contents of the map a reference points to; a nil map has no entries. -/
def Process.deref (σ : Process) : MapRef → GoMap
  | MapRef.nil => ⟨[], List.nodup_nil⟩
  | MapRef.controllerKindImports => σ.controllerKindImports

/-- Go struct ControllerKind, with a non-nil Resource. -/
structure ControllerKind extends Input where
  /-- The controller's primary resource. -/
  Resource : Resource
  /-- Import path of the API, if given by the invoker. -/
  CustomImport : GoString
  /-- Imports of the scaffold with their identifiers. -/
  ImportMap : MapRef
  /-- Import identifier of the reconciled API. -/
  GoImportIdent : GoString
  deriving DecidableEq, Repr

/-- Modelled from the spec: the constant ControllerDir is declared outside src/; the spec calls
it a fixed controller-directory root and the comment on ControllerKind gives it as
pkg/controller. -/
def ControllerDir : GoString := "pkg/controller".toList

/-- The initial contents of the package variable controllerKindImports. -/
def controllerKindImports : GoMap where
  entries :=
    [("k8s.io/api/core/v1".toList, "corev1".toList),
     ("k8s.io/apimachinery/pkg/api/errors".toList, []),
     ("k8s.io/apimachinery/pkg/apis/meta/v1".toList, "metav1".toList),
     ("k8s.io/apimachinery/pkg/runtime".toList, []),
     ("k8s.io/apimachinery/pkg/types".toList, []),
     ("sigs.k8s.io/controller-runtime/pkg/client".toList, []),
     ("sigs.k8s.io/controller-runtime/pkg/controller".toList, []),
     ("sigs.k8s.io/controller-runtime/pkg/controller/controllerutil".toList, []),
     ("sigs.k8s.io/controller-runtime/pkg/handler".toList, []),
     ("sigs.k8s.io/controller-runtime/pkg/manager".toList, []),
     ("sigs.k8s.io/controller-runtime/pkg/reconcile".toList, []),
     ("sigs.k8s.io/controller-runtime/pkg/log".toList, "logf".toList),
     ("sigs.k8s.io/controller-runtime/pkg/source".toList, [])]
  nodup := by decide

/-- The process state at start-up. -/
def Process.init : Process := ⟨Scaffold.controllerKindImports⟩

/-- The loop `for p, id := range s.ImportMap` of setImports over the entries still to visit,
with the current value of s.GoImportIdent: at the first entry with the same identifier and
another path, "api" is appended and the loop is left. -/
def collisionLoop (importPath : GoString) :
    List (GoString × GoString) → GoString → GoString
  | [], ident => ident
  | (p, id) :: rest, ident =>
    if ident = id ∧ importPath ≠ p then ident ++ "api".toList
    else collisionLoop importPath rest ident

/-- The last part of setImports (from the comment "Import identifiers must be unique within a
file" on) on the contents of the map s.ImportMap points to: the collision loop, then
s.ImportMap[importPath] = s.GoImportIdent.  Returns the new contents and s.GoImportIdent. -/
def mergeImport (t : GoMap) (importPath ident : GoString) : GoMap × GoString :=
  let ident1 := collisionLoop importPath t.entries ident
  (t.set importPath ident1, ident1)

/-- Go (s *ControllerKind) setImports(), returning the process state, the receiver and err.
The first statement makes s.ImportMap point to the map object of controllerKindImports, so the
loop reads that object and the assignment at the end writes to it. -/
def setImports (σ : Process) (s : ControllerKind) :
    Process × ControllerKind × Option ImportError :=
  let s1 := { s with ImportMap := MapRef.controllerKindImports }
  if s1.CustomImport ≠ [] then
    match getCustomAPIImportPathAndIdent s1.CustomImport with
    | (_, id, some err) => (σ, { s1 with GoImportIdent := id }, some err)
    | (importPath, id, none) =>
      let r := mergeImport σ.controllerKindImports importPath id
      (⟨r.1⟩, { s1 with GoImportIdent := r.2 }, none)
  else
    let importPath :=
      pathJoin [s1.Repo, "pkg".toList, "apis".toList, s1.Resource.GoImportGroup,
        s1.Resource.Version]
    let r := mergeImport σ.controllerKindImports importPath
      (s1.Resource.GoImportGroup ++ s1.Resource.Version)
    (⟨r.1⟩, { s1 with GoImportIdent := r.2 }, none)

/-- Go (s *ControllerKind) GetInput(), returning the process state, the receiver, the Input and
the error. -/
def GetInput (σ : Process) (s : ControllerKind) :
    Process × ControllerKind × Input × Option ImportError :=
  let s1 :=
    if s.Path = [] then
      let fileName := s.Resource.LowerKind ++ "_controller.go".toList
      { s with Path := pathJoin [ControllerDir, s.Resource.LowerKind, s.Resource.Version,
          fileName] }
    else s
  let s2 := { s1 with IfExistsAction := IfExistsAction.Error,
                      TemplateBody := TemplateBody.controllerKindTemplate }
  match setImports σ s2 with
  | (σ1, s3, some err) => (σ1, s3, Input.zero, some err)
  | (σ1, s3, none) => (σ1, s3, s3.toInput, none)

/-- The value of the local variable importPath of setImports when it reaches the collision
loop: the path returned by the parser, or the default package path of the resource. -/
def requestImportPath (s : ControllerKind) : GoString :=
  if s.CustomImport ≠ [] then (getCustomAPIImportPathAndIdent s.CustomImport).1
  else
    pathJoin [s.Repo, "pkg".toList, "apis".toList, s.Resource.GoImportGroup, s.Resource.Version]

/-- The value of s.GoImportIdent when setImports reaches the collision loop: the identifier
returned by the parser, or group and version of the resource. -/
def requestIdent (s : ControllerKind) : GoString :=
  if s.CustomImport ≠ [] then (getCustomAPIImportPathAndIdent s.CustomImport).2.1
  else s.Resource.GoImportGroup ++ s.Resource.Version

/-- The map of a request as the template sees it: the contents, in the given process state, of
the object s.ImportMap points to. -/
def ControllerKind.importMap (σ : Process) (s : ControllerKind) : GoMap :=
  σ.deref s.ImportMap

/-- The request of TestControllerKind: resource AppService of app.example.com/v1alpha1 in the
project github.com/example-inc/app-operator, every other field zero. -/
def appControllerKind : ControllerKind :=
  { Input.zero with
    Repo := "github.com/example-inc/app-operator".toList
    Resource :=
      { LowerKind := "appservice".toList, Version := "v1alpha1".toList,
        GoImportGroup := "app".toList }
    CustomImport := []
    ImportMap := MapRef.nil
    GoImportIdent := [] }

/-! ## Notions of the specification -/

/-- The concatenation of the last two '/'-separated segments of a path, or the whole path when
it has one segment, as the specification words the derived identifier. -/
def lastTwoSegments (path : GoString) : GoString :=
  let segs := path.splitOn '/'
  (segs.drop (segs.length - 2)).flatten

/-- Lower-casing followed by the removal of every rune that is no letter, digit or
underscore. -/
def lowerFilter (s : GoString) : GoString :=
  (stringsToLower s).filter identRune

/-- The derived identifier of the specification: the last two segments, lower-cased, with
every rune that is no letter, digit or underscore removed. -/
def specDerivedIdent (path : GoString) : GoString :=
  (stringsToLower (lastTwoSegments path)).filter identRune

/-- The character class [A-Za-z0-9_] of the specification. -/
def asciiIdentRune (c : Char) : Bool :=
  c.isAlphanum || c == '_'

/-- The part of the input before the first '='. -/
def beforeFirstEq (m : GoString) : GoString :=
  m.takeWhile fun c => decide (c ≠ '=')

/-- The part of the input between the first and the second '=', empty when there is no '='. -/
def afterFirstEq (m : GoString) : GoString :=
  ((m.dropWhile fun c => decide (c ≠ '=')).drop 1).takeWhile fun c => decide (c ≠ '=')

/-- The identifier before sanitizing, in the words of the specification: the trimmed
identifier part when it is not empty, else the lower-cased last two segments of the trimmed
path. -/
def parsedOrDerivedIdent (m : GoString) : GoString :=
  if stringsTrimSpace (afterFirstEq m) ≠ [] then stringsTrimSpace (afterFirstEq m)
  else stringsToLower (lastTwoSegments (stringsTrimSpace (beforeFirstEq m)))

/-! ## Standard library: package text/template -/

/-- Go string comparison a <= b.  Go compares the bytes; on valid UTF-8 that is the order of
the code points. -/
def goStringLe : GoString → GoString → Bool
  | [], _ => true
  | _ :: _, [] => false
  | a :: as, b :: bs =>
    decide (a.toNat < b.toNat) || (decide (a.toNat = b.toNat) && goStringLe as bs)

/-- The keys of a map as text/template sorts them before a range action runs over the map. -/
def sortedKeys (m : GoMap) : List GoString :=
  (m.entries.map Prod.fst).insertionSort fun a b => goStringLe a b = true

/-- The pairs that the action range $p, $i := .ImportMap of controllerKindTemplate visits, in
order: text/template takes the keys of the map in sorted order and looks each one up. -/
def templateRange (m : GoMap) : List (GoString × GoString) :=
  (sortedKeys m).map fun k => (k, (m.get? k).getD [])

/-- The text the body of the range action writes for one pair: the identifier, a space, and
the path in double quotes. -/
def renderImport (e : GoString × GoString) : GoString :=
  e.2 ++ ' ' :: '"' :: (e.1 ++ ['"'])

/-- The import lines of the file, as the template engine writes them. -/
def renderImports (m : GoMap) : List GoString :=
  (templateRange m).map renderImport

/-- A path element that path.Clean leaves alone: not empty, without a slash, and neither "."
nor "..". -/
def plainSegment (e : GoString) : Bool :=
  decide (e ≠ []) && decide ('/' ∉ e) && decide (e ≠ ['.']) && decide (e ≠ ['.', '.'])

/-! ## Lemmas on the string functions -/

theorem stringsSplit_ne_nil (sep : Char) (s : GoString) : stringsSplit sep s ≠ [] := by
  cases s with
  | nil => simp [stringsSplit]
  | cons c cs =>
    unfold stringsSplit
    split
    · simp
    · split <;> simp

theorem stringsSplit_cons_ne (sep c : Char) (cs : GoString) (h : c ≠ sep) :
    stringsSplit sep (c :: cs) = (stringsSplit sep cs).modifyHead (c :: ·) := by
  have hne := stringsSplit_ne_nil sep cs
  rw [stringsSplit, if_neg h]
  cases hs : stringsSplit sep cs with
  | nil => exact absurd hs hne
  | cons a t => rfl

theorem stringsSplit_cons_eq (sep : Char) (cs : GoString) :
    stringsSplit sep (sep :: cs) = [] :: stringsSplit sep cs := by
  rw [stringsSplit, if_pos rfl]

/-- The model of strings.Split agrees with the library function List.splitOn. -/
theorem stringsSplit_eq_splitOn (sep : Char) (s : GoString) :
    stringsSplit sep s = s.splitOn sep := by
  induction s with
  | nil => simp [stringsSplit, List.splitOn, List.splitOnP_nil]
  | cons c cs ih =>
    by_cases h : c = sep
    · subst h
      rw [stringsSplit_cons_eq, ih]
      simp [List.splitOn, List.splitOnP_cons]
    · rw [stringsSplit_cons_ne sep c cs h, ih]
      simp [List.splitOn, List.splitOnP_cons, h]

theorem stringsSplit_noSep (sep : Char) (s : GoString) (h : sep ∉ s) :
    stringsSplit sep s = [s] := by
  induction s with
  | nil => rfl
  | cons c cs ih =>
    have hc : c ≠ sep := fun e => h (e ▸ List.mem_cons_self _ _)
    have hcs : sep ∉ cs := fun e => h (List.mem_cons_of_mem _ e)
    rw [stringsSplit_cons_ne sep c cs hc, ih hcs]
    rfl

theorem stringsSplit_append (sep : Char) (a b : GoString) (h : sep ∉ a) :
    stringsSplit sep (a ++ sep :: b) = a :: stringsSplit sep b := by
  induction a with
  | nil => exact stringsSplit_cons_eq sep b
  | cons c cs ih =>
    have hc : c ≠ sep := fun e => h (e ▸ List.mem_cons_self _ _)
    have hcs : sep ∉ cs := fun e => h (List.mem_cons_of_mem _ e)
    rw [List.cons_append, stringsSplit_cons_ne sep c _ hc, ih hcs]
    rfl

theorem stringsSplit_head (sep : Char) (s : GoString) :
    ∃ t, stringsSplit sep s = s.takeWhile (fun c => decide (c ≠ sep)) :: t := by
  induction s with
  | nil => exact ⟨[], rfl⟩
  | cons c cs ih =>
    by_cases h : c = sep
    · subst h
      exact ⟨stringsSplit c cs, by simp [stringsSplit_cons_eq]⟩
    · obtain ⟨t, ht⟩ := ih
      exact ⟨t, by simp [stringsSplit_cons_ne sep c cs h, ht, h]⟩

theorem builderLoop_eq (idb s : GoString) :
    builderLoop idb s = idb ++ s.filter identRune := by
  induction s generalizing idb with
  | nil => simp [builderLoop]
  | cons r rest ih =>
    by_cases h : identRune r = true
    · simp [builderLoop, h, ih]
    · simp [builderLoop, h, ih]

theorem splitLoop_skip (i : Nat) (l : List GoString) (acc : GoString × GoString) :
    splitLoop (i + 2) l acc = acc := by
  induction l generalizing i acc with
  | nil => simp [splitLoop]
  | cons e rest ih =>
    obtain ⟨p, id⟩ := acc
    rw [splitLoop, if_neg (by omega), if_neg (by omega)]
    exact ih (i + 1) _

theorem splitLoop_one (e : GoString) (acc : GoString × GoString) :
    splitLoop 0 [e] acc = (stringsTrimSpace e, acc.2) := by
  obtain ⟨p, id⟩ := acc
  simp [splitLoop]

theorem splitLoop_two (e1 e2 : GoString) (rest : List GoString) (acc : GoString × GoString) :
    splitLoop 0 (e1 :: e2 :: rest) acc = (stringsTrimSpace e1, stringsTrimSpace e2) := by
  obtain ⟨p, id⟩ := acc
  rw [splitLoop, if_pos rfl, splitLoop, if_neg (by omega), if_pos rfl]
  exact splitLoop_skip 0 rest _

theorem splitLoop_fst (e : GoString) (rest : List GoString) (acc : GoString × GoString) :
    (splitLoop 0 (e :: rest) acc).1 = stringsTrimSpace e := by
  cases rest with
  | nil => rw [splitLoop_one]
  | cons e2 r => rw [splitLoop_two]

theorem getCustom_of_split (m : GoString) (sm : List GoString) (p id : GoString)
    (hs : stringsSplit '=' m = sm) (hl : splitLoop 0 sm ([], []) = (p, id)) :
    getCustomAPIImportPathAndIdent m =
      if p = [] then ([], [], some (ImportError.pathIsEmpty m))
      else if id = [] then
        if sm.length = 2 then ([], [], some (ImportError.identifierIsEmpty m))
        else (p, (derivedIdent p).filter identRune, none)
      else (p, id.filter identRune, none) := by
  subst hs
  simp only [getCustomAPIImportPathAndIdent, hl, builderLoop_eq, List.nil_append]

theorem stringsTrimSpace_nil : stringsTrimSpace [] = [] := rfl

/-- Input without a separator: the identifier is derived from the trimmed path. -/
theorem getCustom_noSep (m : GoString) (h : '=' ∉ m) (hp : stringsTrimSpace m ≠ []) :
    getCustomAPIImportPathAndIdent m =
      (stringsTrimSpace m, (derivedIdent (stringsTrimSpace m)).filter identRune, none) := by
  rw [getCustom_of_split m [m] (stringsTrimSpace m) [] (stringsSplit_noSep _ m h)
    (splitLoop_one m _)]
  simp [hp]

/-- Input with a non-empty path and a non-empty identifier part: anything after a second
separator plays no part. -/
theorem getCustom_explicit (a b : GoString) (tl : List GoString) (m : GoString)
    (hs : stringsSplit '=' m = a :: b :: tl)
    (hp : stringsTrimSpace a ≠ []) (hi : stringsTrimSpace b ≠ []) :
    getCustomAPIImportPathAndIdent m =
      (stringsTrimSpace a, (stringsTrimSpace b).filter identRune, none) := by
  rw [getCustom_of_split m _ _ _ hs (splitLoop_two a b tl _)]
  simp [hp, hi]

/-- Input of the form path ++ "=" ++ id with both parts non-empty after trimming. -/
theorem getCustom_pair (path id : GoString) (hp : '=' ∉ path) (hi : '=' ∉ id)
    (hpn : stringsTrimSpace path ≠ []) (hin : stringsTrimSpace id ≠ []) :
    getCustomAPIImportPathAndIdent (path ++ '=' :: id) =
      (stringsTrimSpace path, (stringsTrimSpace id).filter identRune, none) := by
  have hs : stringsSplit '=' (path ++ '=' :: id) = [path, id] := by
    rw [stringsSplit_append _ _ _ hp, stringsSplit_noSep _ _ hi]
  exact getCustom_explicit path id [] _ hs hpn hin

/-! ## White space and the derived identifier -/

theorem unicodeIsSpace_toNat (c : Char) (h : unicodeIsSpace c = true) :
    c.toNat ∈ [0x09, 0x0A, 0x0B, 0x0C, 0x0D, 0x20, 0x85, 0xA0, 0x1680, 0x2000, 0x2001, 0x2002,
      0x2003, 0x2004, 0x2005, 0x2006, 0x2007, 0x2008, 0x2009, 0x200A, 0x2028, 0x2029, 0x202F,
      0x205F, 0x3000] := by
  unfold unicodeIsSpace at h
  generalize c.toNat = n at h ⊢
  simp only [inRanges, unicodeWhiteSpaceRanges, List.any_cons, List.any_nil] at h
  split at h
  · simp at h
    simp
    omega
  · simp at h
    simp
    omega

set_option maxRecDepth 100000 in
theorem space_facts : ∀ n ∈ [0x09, 0x0A, 0x0B, 0x0C, 0x0D, 0x20, 0x85, 0xA0, 0x1680, 0x2000,
    0x2001, 0x2002, 0x2003, 0x2004, 0x2005, 0x2006, 0x2007, 0x2008, 0x2009, 0x200A, 0x2028,
    0x2029, 0x202F, 0x205F, 0x3000],
    identRune (unicodeToLower (Char.ofNat n)) = false ∧ Char.ofNat n ≠ '/' ∧
      identRune (Char.ofNat n) = false ∧ Char.ofNat n ≠ '=' := by
  decide

theorem unicodeIsSpace_facts (c : Char) (h : unicodeIsSpace c = true) :
    identRune (unicodeToLower c) = false ∧ c ≠ '/' ∧ identRune c = false ∧ c ≠ '=' := by
  have h1 := space_facts c.toNat (unicodeIsSpace_toNat c h)
  rwa [Char.ofNat_toNat] at h1

theorem lowerFilter_append (a b : GoString) :
    lowerFilter (a ++ b) = lowerFilter a ++ lowerFilter b := by
  simp [lowerFilter, stringsToLower]

theorem lowerFilter_cons_space (c : Char) (s : GoString) (h : unicodeIsSpace c = true) :
    lowerFilter (c :: s) = lowerFilter s := by
  simp [lowerFilter, stringsToLower, (unicodeIsSpace_facts c h).1]

theorem lowerFilter_flatten (l : List GoString) :
    lowerFilter l.flatten = (l.map lowerFilter).flatten := by
  induction l with
  | nil => rfl
  | cons a rest ih => simp [lowerFilter_append, ih]

theorem map_lowerFilter_modifyHead (c : Char) (l : List GoString)
    (h : unicodeIsSpace c = true) :
    (l.modifyHead (c :: ·)).map lowerFilter = l.map lowerFilter := by
  cases l with
  | nil => rfl
  | cons a rest => simp [List.modifyHead, lowerFilter_cons_space c a h]

theorem map_lowerFilter_modifyHead_cons (c : Char) (l1 l2 : List GoString)
    (h : l1.map lowerFilter = l2.map lowerFilter) :
    (l1.modifyHead (c :: ·)).map lowerFilter = (l2.modifyHead (c :: ·)).map lowerFilter := by
  cases l1 with
  | nil =>
    cases l2 with
    | nil => rfl
    | cons b r2 => simp at h
  | cons a r1 =>
    cases l2 with
    | nil => simp at h
    | cons b r2 =>
      simp only [List.map_cons, List.cons.injEq] at h
      have hab : lowerFilter (c :: a) = lowerFilter (c :: b) := by
        have e1 := lowerFilter_append [c] a
        have e2 := lowerFilter_append [c] b
        simp only [List.singleton_append] at e1 e2
        rw [e1, e2, h.1]
      simp [List.modifyHead, hab, h.2]

theorem map_lowerFilter_split_dropWhile (s : GoString) :
    (stringsSplit '/' (s.dropWhile unicodeIsSpace)).map lowerFilter =
      (stringsSplit '/' s).map lowerFilter := by
  induction s with
  | nil => rfl
  | cons c cs ih =>
    by_cases h : unicodeIsSpace c = true
    · rw [List.dropWhile_cons_of_pos h, ih,
        stringsSplit_cons_ne '/' c cs (unicodeIsSpace_facts c h).2.1,
        map_lowerFilter_modifyHead c _ h]
    · rw [List.dropWhile_cons_of_neg h]

theorem map_lowerFilter_split_concat (l : GoString) (x : Char)
    (h : unicodeIsSpace x = true) :
    (stringsSplit '/' (l ++ [x])).map lowerFilter = (stringsSplit '/' l).map lowerFilter := by
  induction l with
  | nil =>
    rw [List.nil_append, stringsSplit_cons_ne '/' x [] (unicodeIsSpace_facts x h).2.1,
      map_lowerFilter_modifyHead x _ h]
  | cons c cs ih =>
    by_cases hc : c = '/'
    · subst hc
      rw [List.cons_append, stringsSplit_cons_eq, stringsSplit_cons_eq, List.map_cons,
        List.map_cons, ih]
    · rw [List.cons_append, stringsSplit_cons_ne '/' c _ hc, stringsSplit_cons_ne '/' c _ hc]
      exact map_lowerFilter_modifyHead_cons c _ _ ih

theorem map_lowerFilter_split_rdropWhile (s : GoString) :
    (stringsSplit '/' (s.rdropWhile unicodeIsSpace)).map lowerFilter =
      (stringsSplit '/' s).map lowerFilter := by
  induction s using List.reverseRecOn with
  | nil => rfl
  | append_singleton l x ih =>
    rw [List.rdropWhile_concat]
    by_cases h : unicodeIsSpace x = true
    · rw [if_pos h, ih, map_lowerFilter_split_concat l x h]
    · rw [if_neg h]

theorem map_lowerFilter_split_trim (s : GoString) :
    (stringsSplit '/' (stringsTrimSpace s)).map lowerFilter =
      (stringsSplit '/' s).map lowerFilter := by
  rw [stringsTrimSpace, map_lowerFilter_split_rdropWhile, map_lowerFilter_split_dropWhile]

theorem lastTwo_getD (l : List GoString) (h : l ≠ []) :
    (if l.length > 1 then l.getD (l.length - 2) [] ++ l.getD (l.length - 1) []
      else l.getD 0 []) = (l.drop (l.length - 2)).flatten := by
  induction l with
  | nil => exact absurd rfl h
  | cons a rest ih =>
    cases rest with
    | nil => simp
    | cons b r2 =>
      cases r2 with
      | nil => simp
      | cons c r3 =>
        have ih1 := ih (by simp)
        simp only [List.length_cons] at ih1 ⊢
        have e1 : r3.length + 1 + 1 + 1 - 2 = (r3.length + 1 + 1 - 2) + 1 := by omega
        have e2 : r3.length + 1 + 1 + 1 - 1 = (r3.length + 1 + 1 - 1) + 1 := by omega
        rw [if_pos (by omega)] at ih1
        rw [if_pos (by omega), e1, e2, List.getD_cons_succ, List.getD_cons_succ,
          List.drop_succ_cons]
        exact ih1

/-- The identifier the code derives from a path is the derived identifier of the
specification. -/
theorem derivedIdent_filter (p : GoString) :
    (derivedIdent p).filter identRune = specDerivedIdent p := by
  have h := lastTwo_getD (stringsSplit '/' p) (stringsSplit_ne_nil '/' p)
  simp only [derivedIdent, specDerivedIdent, lastTwoSegments, lowerFilter,
    ← stringsSplit_eq_splitOn]
  rw [h]

/-- Trimming the path does not change the derived identifier: white space is no separator
and is removed from the identifier in any case. -/
theorem specDerivedIdent_trim (s : GoString) :
    specDerivedIdent (stringsTrimSpace s) = specDerivedIdent s := by
  have hmap := map_lowerFilter_split_trim s
  have hlen : (stringsSplit '/' (stringsTrimSpace s)).length = (stringsSplit '/' s).length := by
    have := congrArg List.length hmap
    simpa using this
  simp only [specDerivedIdent, lastTwoSegments, ← stringsSplit_eq_splitOn]
  change lowerFilter _ = lowerFilter _
  rw [lowerFilter_flatten, lowerFilter_flatten, List.map_drop, List.map_drop, hmap, hlen]

theorem stringsSplit_unfold (sep : Char) (m : GoString) :
    stringsSplit sep m = m.takeWhile (fun c => decide (c ≠ sep)) ::
      (match m.dropWhile (fun c => decide (c ≠ sep)) with
        | [] => []
        | _ :: r => stringsSplit sep r) := by
  induction m with
  | nil => rfl
  | cons c cs ih =>
    by_cases h : c = sep
    · subst h
      simp [stringsSplit_cons_eq]
    · rw [stringsSplit_cons_ne sep c cs h, ih]
      simp [List.modifyHead, h]

theorem splitLoop_stringsSplit (m : GoString) :
    splitLoop 0 (stringsSplit '=' m) ([], []) =
      (stringsTrimSpace (beforeFirstEq m), stringsTrimSpace (afterFirstEq m)) := by
  rw [stringsSplit_unfold]
  unfold beforeFirstEq afterFirstEq
  cases hd : m.dropWhile (fun c => decide (c ≠ '=')) with
  | nil => simp [splitLoop_one, stringsTrimSpace_nil]
  | cons x r =>
    obtain ⟨t, ht⟩ := stringsSplit_head '=' r
    simp only [ht, splitLoop_two, List.drop_succ_cons, List.drop_zero]

/-- The result of the parser in terms of the parts of the input around the first '='. -/
theorem getCustom_eq (m : GoString) :
    getCustomAPIImportPathAndIdent m =
      if stringsTrimSpace (beforeFirstEq m) = [] then
        ([], [], some (ImportError.pathIsEmpty m))
      else if stringsTrimSpace (afterFirstEq m) = [] then
        if (stringsSplit '=' m).length = 2 then ([], [], some (ImportError.identifierIsEmpty m))
        else (stringsTrimSpace (beforeFirstEq m),
          specDerivedIdent (stringsTrimSpace (beforeFirstEq m)), none)
      else (stringsTrimSpace (beforeFirstEq m),
        (stringsTrimSpace (afterFirstEq m)).filter identRune, none) := by
  rw [getCustom_of_split m _ _ _ rfl (splitLoop_stringsSplit m), derivedIdent_filter]

/-! ## Lemmas on maps and on the collision loop -/

theorem find_setEntry_self (k v : GoString) (l : List (GoString × GoString)) :
    ((setEntry k v l).find? fun e => decide (e.1 = k)) = some (k, v) := by
  induction l with
  | nil => simp [setEntry]
  | cons e rest ih =>
    obtain ⟨k1, v1⟩ := e
    by_cases h : k1 = k
    · simp [setEntry, h]
    · simp [setEntry, h, ih]

theorem find_setEntry_ne (k v q : GoString) (l : List (GoString × GoString)) (h : q ≠ k) :
    ((setEntry k v l).find? fun e => decide (e.1 = q)) = l.find? fun e => decide (e.1 = q) := by
  induction l with
  | nil => simp [setEntry, Ne.symm h]
  | cons e rest ih =>
    obtain ⟨k1, v1⟩ := e
    by_cases h1 : k1 = k
    · subst h1
      simp [setEntry, List.find?_cons, Ne.symm h]
    · by_cases h2 : k1 = q
      · subst h2
        simp [setEntry, h1, List.find?_cons]
      · simp [setEntry, h1, List.find?_cons, h2, ih]

theorem GoMap.get?_set_self (m : GoMap) (k v : GoString) : (m.set k v).get? k = some v := by
  simp [GoMap.get?, GoMap.set, find_setEntry_self]

theorem GoMap.get?_set_ne (m : GoMap) (k v q : GoString) (h : q ≠ k) :
    (m.set k v).get? q = m.get? q := by
  simp [GoMap.get?, GoMap.set, find_setEntry_ne k v q m.entries h]

theorem find_of_mem_nodup (p id : GoString) (l : List (GoString × GoString))
    (hnd : (l.map Prod.fst).Nodup) (hm : (p, id) ∈ l) :
    (l.find? fun e => decide (e.1 = p)) = some (p, id) := by
  induction l with
  | nil => cases hm
  | cons e rest ih =>
    obtain ⟨k1, v1⟩ := e
    rw [List.map_cons, List.nodup_cons] at hnd
    rcases List.mem_cons.1 hm with heq | hmem
    · cases heq
      simp
    · have hne : k1 ≠ p := by
        intro e1
        subst e1
        exact hnd.1 (List.mem_map.2 ⟨(k1, id), hmem, rfl⟩)
      simp [List.find?_cons, hne, ih hnd.2 hmem]

/-- A pair is an entry of a map exactly when the map binds its path to its identifier. -/
theorem GoMap.mem_entries_iff (m : GoMap) (p id : GoString) :
    (p, id) ∈ m.entries ↔ m.get? p = some id := by
  constructor
  · intro hm
    simp [GoMap.get?, find_of_mem_nodup p id m.entries m.nodup hm]
  · intro hg
    simp only [GoMap.get?, Option.map_eq_some'] at hg
    obtain ⟨e, he, hid⟩ := hg
    have h1 := List.find?_some he
    have h2 := List.mem_of_find?_eq_some he
    obtain ⟨k1, v1⟩ := e
    simp at h1 hid
    subst h1 hid
    exact h2

theorem collisionLoop_of_conflict (importPath ident : GoString)
    (l : List (GoString × GoString))
    (h : ∃ e ∈ l, ident = e.2 ∧ importPath ≠ e.1) :
    collisionLoop importPath l ident = ident ++ "api".toList := by
  induction l with
  | nil =>
    obtain ⟨e, he, _⟩ := h
    cases he
  | cons e rest ih =>
    obtain ⟨p, id⟩ := e
    by_cases hc : ident = id ∧ importPath ≠ p
    · rw [collisionLoop, if_pos hc]
    · rw [collisionLoop, if_neg hc]
      apply ih
      obtain ⟨e1, he1, hcond⟩ := h
      rcases List.mem_cons.1 he1 with heq | hmem
      · subst heq
        exact absurd hcond hc
      · exact ⟨e1, hmem, hcond⟩

theorem collisionLoop_of_no_conflict (importPath ident : GoString)
    (l : List (GoString × GoString))
    (h : ∀ e ∈ l, ¬ (ident = e.2 ∧ importPath ≠ e.1)) :
    collisionLoop importPath l ident = ident := by
  induction l with
  | nil => rfl
  | cons e rest ih =>
    obtain ⟨p, id⟩ := e
    rw [collisionLoop, if_neg (h (p, id) (List.mem_cons_self _ _))]
    exact ih fun e1 he1 => h e1 (List.mem_cons_of_mem _ he1)

/-- The loop adds "api" exactly when some entry binds the identifier to another path, in
whatever order the entries are visited. -/
theorem collisionLoop_eq (importPath ident : GoString) (l : List (GoString × GoString)) :
    collisionLoop importPath l ident =
      if ∃ e ∈ l, ident = e.2 ∧ importPath ≠ e.1 then ident ++ "api".toList else ident := by
  by_cases h : ∃ e ∈ l, ident = e.2 ∧ importPath ≠ e.1
  · rw [if_pos h, collisionLoop_of_conflict importPath ident l h]
  · rw [if_neg h]
    exact collisionLoop_of_no_conflict importPath ident l
      fun e he hc => h ⟨e, he, hc⟩

/-! ## Lemmas on setImports and GetInput -/

theorem setImports_spec (σ : Process) (s : ControllerKind) :
    (setImports σ s).2.1.ImportMap = MapRef.controllerKindImports ∧
    match (setImports σ s).2.2 with
    | some _ => (setImports σ s).1 = σ
    | none =>
      (setImports σ s).1.controllerKindImports =
        (mergeImport σ.controllerKindImports (requestImportPath s) (requestIdent s)).1 ∧
      (setImports σ s).2.1.GoImportIdent =
        (mergeImport σ.controllerKindImports (requestImportPath s) (requestIdent s)).2 := by
  by_cases hc : s.CustomImport = []
  · simp [setImports, requestImportPath, requestIdent, hc]
  · rcases hp : getCustomAPIImportPathAndIdent s.CustomImport with ⟨p, id, _ | e⟩
    · simp [setImports, requestImportPath, requestIdent, hc, hp]
    · simp [setImports, requestImportPath, requestIdent, hc, hp]

theorem GetInput_spec (σ : Process) (s : ControllerKind) :
    (GetInput σ s).2.1.ImportMap = MapRef.controllerKindImports ∧
    match (GetInput σ s).2.2.2 with
    | some _ => (GetInput σ s).1 = σ
    | none =>
      (GetInput σ s).1.controllerKindImports =
        (mergeImport σ.controllerKindImports (requestImportPath s) (requestIdent s)).1 ∧
      (GetInput σ s).2.1.GoImportIdent =
        (mergeImport σ.controllerKindImports (requestImportPath s) (requestIdent s)).2 := by
  by_cases hc : s.CustomImport = []
  · by_cases hpath : s.Path = [] <;>
      simp [GetInput, setImports, requestImportPath, requestIdent, hc, hpath]
  · rcases hp : getCustomAPIImportPathAndIdent s.CustomImport with ⟨p, id, _ | e⟩
    · by_cases hpath : s.Path = [] <;>
        simp [GetInput, setImports, requestImportPath, requestIdent, hc, hp, hpath]
    · by_cases hpath : s.Path = [] <;>
        simp [GetInput, setImports, requestImportPath, requestIdent, hc, hp, hpath]

/-- What a call of GetInput does to the map object of controllerKindImports. -/
theorem GetInput_frame (σ : Process) (s : ControllerKind) :
    (GetInput σ s).2.1.ImportMap = MapRef.controllerKindImports ∧
    match (GetInput σ s).2.2.2 with
    | some _ => (GetInput σ s).1 = σ
    | none =>
      (GetInput σ s).1.controllerKindImports.get? (requestImportPath s) =
        some (GetInput σ s).2.1.GoImportIdent ∧
      ∀ k, k ≠ requestImportPath s →
        (GetInput σ s).1.controllerKindImports.get? k = σ.controllerKindImports.get? k := by
  obtain ⟨h1, h2⟩ := GetInput_spec σ s
  refine ⟨h1, ?_⟩
  cases hE : (GetInput σ s).2.2.2 with
  | some e =>
    simp only [hE] at h2 ⊢
    exact h2
  | none =>
    simp only [hE] at h2 ⊢
    obtain ⟨ht, hi⟩ := h2
    rw [ht, hi]
    exact ⟨GoMap.get?_set_self _ _ _, fun k hk => GoMap.get?_set_ne _ _ _ k hk⟩

/-! ## Properties of getCustomAPIImportPathAndIdent -/

/-- C5: when the part of the input before the first '=' is empty after trimming white space
(the empty string, "=id", a bare "="), getCustomAPIImportPathAndIdent returns the empty path,
the empty identifier and the path-is-empty error, whatever follows the '='. -/
theorem getCustom_empty_path (m : GoString)
    (h : stringsTrimSpace (beforeFirstEq m) = []) :
    getCustomAPIImportPathAndIdent m = ([], [], some (ImportError.pathIsEmpty m)) := by
  unfold beforeFirstEq at h
  obtain ⟨t, ht⟩ := stringsSplit_head '=' m
  have hfst := splitLoop_fst (m.takeWhile fun c => decide (c ≠ '=')) t ([], [])
  rw [h] at hfst
  have hl : splitLoop 0 (List.takeWhile (fun c => decide (c ≠ '=')) m :: t) ([], []) =
      ([], (splitLoop 0 (List.takeWhile (fun c => decide (c ≠ '=')) m :: t) ([], [])).2) :=
    Prod.ext hfst rfl
  rw [getCustom_of_split m _ _ _ ht hl, if_pos rfl]

/-- The bare "=" fails on the path, not on the identifier. -/
theorem getCustom_empty_path_witness :
    stringsTrimSpace (beforeFirstEq "=".toList) = [] ∧
    getCustomAPIImportPathAndIdent "=".toList =
      ([], [], some (ImportError.pathIsEmpty "=".toList)) :=
  ⟨by decide, getCustom_empty_path "=".toList (by decide)⟩

/-- C6: for an input path ++ "=" ++ rest, with no '=' in path or rest, path non-empty after
trimming and rest empty after trimming, getCustomAPIImportPathAndIdent returns the
identifier-is-empty error (with empty path and identifier) and derives no identifier. -/
theorem getCustom_empty_identifier (path rest : GoString) (hp : '=' ∉ path) (hr : '=' ∉ rest)
    (hpn : stringsTrimSpace path ≠ []) (hre : stringsTrimSpace rest = []) :
    getCustomAPIImportPathAndIdent (path ++ '=' :: rest) =
      ([], [], some (ImportError.identifierIsEmpty (path ++ '=' :: rest))) := by
  have hs : stringsSplit '=' (path ++ '=' :: rest) = [path, rest] := by
    rw [stringsSplit_append _ _ _ hp, stringsSplit_noSep _ _ hr]
  rw [getCustom_of_split _ _ _ _ hs (splitLoop_two path rest [] _), if_neg hpn, if_pos hre]
  rfl

/-- The test input "k8s.io/api/rbac/v1=" is rejected for its empty identifier. -/
theorem getCustom_empty_identifier_witness :
    getCustomAPIImportPathAndIdent ("k8s.io/api/rbac/v1".toList ++ '=' :: []) =
      ([], [], some (ImportError.identifierIsEmpty ("k8s.io/api/rbac/v1".toList ++ '=' :: []))) :=
  getCustom_empty_identifier "k8s.io/api/rbac/v1".toList [] (by decide) (by decide) (by decide)
    (by decide)

/-- C7: for an input path ++ "=" ++ id, with no '=' in path or id and both non-empty after
trimming, getCustomAPIImportPathAndIdent succeeds, returns the trimmed path as it is, and
returns the trimmed id with the runes that are no letter, digit or underscore dropped: the
runes kept stay in their order and in their case. -/
theorem getCustom_explicit_identifier (path id : GoString) (hp : '=' ∉ path) (hi : '=' ∉ id)
    (hpn : stringsTrimSpace path ≠ []) (hin : stringsTrimSpace id ≠ []) :
    getCustomAPIImportPathAndIdent (path ++ '=' :: id) =
      (stringsTrimSpace path, (stringsTrimSpace id).filter identRune, none) :=
  getCustom_pair path id hp hi hpn hin

/-- The test inputs with identifiers rbac-v1, rbaC_v1 and Rbacv1. -/
theorem getCustom_explicit_identifier_witness :
    getCustomAPIImportPathAndIdent ("k8s.io/api/rbac/v1".toList ++ '=' :: "rbaC_v1".toList) =
      (stringsTrimSpace "k8s.io/api/rbac/v1".toList,
        (stringsTrimSpace "rbaC_v1".toList).filter identRune, none) ∧
    getCustomAPIImportPathAndIdent "k8s.io/api/rbac/v1=rbac-v1".toList =
      ("k8s.io/api/rbac/v1".toList, "rbacv1".toList, none) ∧
    getCustomAPIImportPathAndIdent "k8s.io/api/rbac/v1=rbaC_v1".toList =
      ("k8s.io/api/rbac/v1".toList, "rbaC_v1".toList, none) ∧
    getCustomAPIImportPathAndIdent "k8s.io/api/rbac/v1=Rbacv1".toList =
      ("k8s.io/api/rbac/v1".toList, "Rbacv1".toList, none) :=
  ⟨getCustom_explicit_identifier "k8s.io/api/rbac/v1".toList "rbaC_v1".toList (by decide)
    (by decide) (by decide) (by decide), by decide, by decide, by decide⟩

/-- C9: for a and b without '=' and non-empty after trimming, the input a ++ "=" ++ b ++ "=" ++
rest succeeds and returns the path and identifier of a ++ "=" ++ b, whatever rest is. -/
theorem getCustom_second_separator (a b rest : GoString) (ha : '=' ∉ a) (hb : '=' ∉ b)
    (han : stringsTrimSpace a ≠ []) (hbn : stringsTrimSpace b ≠ []) :
    (getCustomAPIImportPathAndIdent (a ++ '=' :: (b ++ '=' :: rest))).2.2 = none ∧
    getCustomAPIImportPathAndIdent (a ++ '=' :: (b ++ '=' :: rest)) =
      getCustomAPIImportPathAndIdent (a ++ '=' :: b) := by
  have hs : stringsSplit '=' (a ++ '=' :: (b ++ '=' :: rest)) =
      a :: b :: stringsSplit '=' rest := by
    rw [stringsSplit_append _ _ _ ha, stringsSplit_append _ _ _ hb]
  rw [getCustom_explicit a b _ _ hs han hbn, getCustom_pair a b ha hb han hbn]
  exact ⟨rfl, rfl⟩

/-- The test input "k8s.io/api/rbac/v1=rbacv1=". -/
theorem getCustom_second_separator_witness :
    (getCustomAPIImportPathAndIdent
      ("k8s.io/api/rbac/v1".toList ++ '=' :: ("rbacv1".toList ++ '=' :: []))).2.2 = none ∧
    getCustomAPIImportPathAndIdent
      ("k8s.io/api/rbac/v1".toList ++ '=' :: ("rbacv1".toList ++ '=' :: [])) =
      getCustomAPIImportPathAndIdent ("k8s.io/api/rbac/v1".toList ++ '=' :: "rbacv1".toList) ∧
    getCustomAPIImportPathAndIdent "k8s.io/api/rbac/v1=rbacv1=".toList =
      ("k8s.io/api/rbac/v1".toList, "rbacv1".toList, none) :=
  ⟨(getCustom_second_separator "k8s.io/api/rbac/v1".toList "rbacv1".toList [] (by decide)
      (by decide) (by decide) (by decide)).1,
    (getCustom_second_separator "k8s.io/api/rbac/v1".toList "rbacv1".toList [] (by decide)
      (by decide) (by decide) (by decide)).2, by decide⟩

/-- C4, as stated, fails: the path of one space is not empty and has no '=', and the parser
rejects it with the path-is-empty error. -/
theorem getCustom_derived_counterexample :
    " ".toList ≠ [] ∧ '=' ∉ " ".toList ∧
    getCustomAPIImportPathAndIdent " ".toList =
      ([], [], some (ImportError.pathIsEmpty " ".toList)) := by
  decide

/-- C4, amended: for every path without '=' that is not empty after trimming white space,
getCustomAPIImportPathAndIdent succeeds and returns the trimmed path and, as identifier, the
lower-cased concatenation of the last two '/'-separated segments of path (the whole path when
it has one segment) with every rune that is no letter, digit or underscore removed. -/
theorem getCustom_derived_identifier (path : GoString) (h : '=' ∉ path)
    (hp : stringsTrimSpace path ≠ []) :
    getCustomAPIImportPathAndIdent path =
      (stringsTrimSpace path, specDerivedIdent path, none) := by
  rw [getCustom_noSep path h hp, derivedIdent_filter, specDerivedIdent_trim]

/-- The test inputs k8s.io/api/rbac-2/v1 and k8s.io/api/rb_ac/v1. -/
theorem getCustom_derived_identifier_witness :
    getCustomAPIImportPathAndIdent "k8s.io/api/rbac-2/v1".toList =
      (stringsTrimSpace "k8s.io/api/rbac-2/v1".toList,
        specDerivedIdent "k8s.io/api/rbac-2/v1".toList, none) ∧
    specDerivedIdent "k8s.io/api/rbac-2/v1".toList = "rbac2v1".toList ∧
    getCustomAPIImportPathAndIdent "k8s.io/api/rb_ac/v1".toList =
      ("k8s.io/api/rb_ac/v1".toList, "rb_acv1".toList, none) :=
  ⟨getCustom_derived_identifier "k8s.io/api/rbac-2/v1".toList (by decide) (by decide),
    by decide, by decide⟩

/-- C8, as stated, fails: the derived identifier of k8s.io/api/café/v1 keeps the letter é,
which is outside [A-Za-z0-9_]. -/
theorem getCustom_ascii_counterexample :
    getCustomAPIImportPathAndIdent "k8s.io/api/café/v1".toList =
      ("k8s.io/api/café/v1".toList, "cafév1".toList, none) ∧
    'é' ∈ "cafév1".toList ∧ asciiIdentRune 'é' = false := by
  decide

/-- C8, amended: whenever getCustomAPIImportPathAndIdent succeeds, every rune of the returned
identifier is a Unicode digit, a Unicode letter or the underscore, and the identifier is the
subsequence of exactly those runes of the parsed or derived identifier. -/
theorem getCustom_sanitized (m p id : GoString)
    (h : getCustomAPIImportPathAndIdent m = (p, id, none)) :
    (∀ c ∈ id, unicodeIsDigit c = true ∨ unicodeIsLetter c = true ∨ c = '_') ∧
    id = (parsedOrDerivedIdent m).filter identRune := by
  have hid : id = (parsedOrDerivedIdent m).filter identRune := by
    rw [getCustom_eq] at h
    unfold parsedOrDerivedIdent
    by_cases h1 : stringsTrimSpace (beforeFirstEq m) = []
    · rw [if_pos h1] at h
      simp at h
    · rw [if_neg h1] at h
      by_cases h2 : stringsTrimSpace (afterFirstEq m) = []
      · rw [if_pos h2] at h
        rw [if_neg (not_not.2 h2)]
        by_cases h3 : (stringsSplit '=' m).length = 2
        · rw [if_pos h3] at h
          simp at h
        · rw [if_neg h3] at h
          simp only [Prod.mk.injEq] at h
          exact h.2.1.symm
      · rw [if_neg h2] at h
        rw [if_pos h2]
        simp only [Prod.mk.injEq] at h
        exact h.2.1.symm
  refine ⟨fun c hc => ?_, hid⟩
  rw [hid] at hc
  have hk := (List.mem_filter.1 hc).2
  simpa [identRune, or_assoc] using hk

/-- The test input with identifier rbac-v1: the hyphen is the only rune dropped. -/
theorem getCustom_sanitized_witness :
    (∀ c ∈ "rbacv1".toList, unicodeIsDigit c = true ∨ unicodeIsLetter c = true ∨ c = '_') ∧
    "rbacv1".toList =
      (parsedOrDerivedIdent "k8s.io/api/rbac/v1=rbac-v1".toList).filter identRune :=
  getCustom_sanitized "k8s.io/api/rbac/v1=rbac-v1".toList "k8s.io/api/rbac/v1".toList
    "rbacv1".toList (by decide)

/-! ## Properties of the merge step of setImports -/

/-- C3: when the table binds id to a path q other than p, the merge step chooses id followed
by one "api", binds p to that identifier, and leaves the binding of every path other than p
(q among them) as it was. -/
theorem mergeImport_collision (t : GoMap) (p q id : GoString) (hq : q ≠ p)
    (hb : t.get? q = some id) :
    (mergeImport t p id).2 = id ++ "api".toList ∧
    (mergeImport t p id).1.get? p = some (id ++ "api".toList) ∧
    ∀ k, k ≠ p → (mergeImport t p id).1.get? k = t.get? k := by
  have hloop : collisionLoop p t.entries id = id ++ "api".toList :=
    collisionLoop_of_conflict p id t.entries
      ⟨(q, id), (GoMap.mem_entries_iff t q id).2 hb, rfl, Ne.symm hq⟩
  refine ⟨hloop, ?_, fun k hk => ?_⟩
  · simp only [mergeImport, hloop]
    exact GoMap.get?_set_self t p _
  · simp only [mergeImport]
    exact GoMap.get?_set_ne t p _ k hk

/-- The table with pkgA bound to foo, merged with (pkgB, foo): pkgB is bound to fooapi and
pkgA is still bound to foo. -/
theorem mergeImport_collision_witness :
    (mergeImport ⟨[("pkgA".toList, "foo".toList)], by decide⟩ "pkgB".toList "foo".toList).2 =
      "foo".toList ++ "api".toList ∧
    (mergeImport ⟨[("pkgA".toList, "foo".toList)], by decide⟩ "pkgB".toList
      "foo".toList).1.get? "pkgB".toList = some "fooapi".toList ∧
    (mergeImport ⟨[("pkgA".toList, "foo".toList)], by decide⟩ "pkgB".toList
      "foo".toList).1.get? "pkgA".toList = some "foo".toList :=
  ⟨(mergeImport_collision ⟨[("pkgA".toList, "foo".toList)], by decide⟩ "pkgB".toList
      "pkgA".toList "foo".toList (by decide) (by decide)).1, by decide, by decide⟩

/-- C10, as stated, fails: an identifier bound to the same path p is renamed all the same when
another path holds it too.  With pkgA and pkgC bound to foo, merging (pkgA, foo) chooses fooapi
and binds pkgA to it.  On the table as declared, the custom import
k8s.io/apimachinery/pkg/runtime=- parses to the empty identifier, which that path already
holds along with nine other paths, and GoImportIdent becomes api. -/
theorem mergeImport_no_rename_counterexample :
    (GoMap.mk [("pkgA".toList, "foo".toList), ("pkgC".toList, "foo".toList)]
      (by decide)).get? "pkgA".toList = some "foo".toList ∧
    (mergeImport ⟨[("pkgA".toList, "foo".toList), ("pkgC".toList, "foo".toList)], by decide⟩
      "pkgA".toList "foo".toList).2 = "fooapi".toList ∧
    (mergeImport ⟨[("pkgA".toList, "foo".toList), ("pkgC".toList, "foo".toList)], by decide⟩
      "pkgA".toList "foo".toList).1.get? "pkgA".toList = some "fooapi".toList ∧
    "fooapi".toList ≠ "foo".toList ∧
    getCustomAPIImportPathAndIdent "k8s.io/apimachinery/pkg/runtime=-".toList =
      ("k8s.io/apimachinery/pkg/runtime".toList, [], none) ∧
    Process.init.controllerKindImports.get? "k8s.io/apimachinery/pkg/runtime".toList =
      some [] ∧
    (GetInput Process.init
      { appControllerKind with
        CustomImport := "k8s.io/apimachinery/pkg/runtime=-".toList }).2.1.GoImportIdent =
      "api".toList := by
  decide

/-- C10, amended: when no path other than p is bound to id (id is unbound, or bound to p and
to no other path), the merge step renames nothing: the chosen identifier is id and the
resulting table binds p to id. -/
theorem mergeImport_no_rename (t : GoMap) (p id : GoString)
    (h : ∀ q, t.get? q = some id → q = p) :
    (mergeImport t p id).2 = id ∧ (mergeImport t p id).1.get? p = some id := by
  have hloop : collisionLoop p t.entries id = id := by
    apply collisionLoop_of_no_conflict
    rintro ⟨q, v⟩ hm ⟨hid, hne⟩
    simp only at hid hne
    subst hid
    exact hne (h q ((GoMap.mem_entries_iff t q id).1 hm)).symm
  refine ⟨hloop, ?_⟩
  simp only [mergeImport, hloop]
  exact GoMap.get?_set_self t p id

/-- With pkgA bound to foo, merging (pkgA, foo) again renames nothing. -/
theorem mergeImport_no_rename_witness :
    (mergeImport ⟨[("pkgA".toList, "foo".toList)], by decide⟩ "pkgA".toList "foo".toList).2 =
      "foo".toList ∧
    (mergeImport ⟨[("pkgA".toList, "foo".toList)], by decide⟩ "pkgA".toList
      "foo".toList).1.get? "pkgA".toList = some "foo".toList :=
  mergeImport_no_rename ⟨[("pkgA".toList, "foo".toList)], by decide⟩ "pkgA".toList
    "foo".toList (by
      intro q hq
      have hm := (GoMap.mem_entries_iff _ q "foo".toList).2 hq
      simp only [List.mem_singleton, Prod.mk.injEq] at hm
      exact hm.1)

/-! ## Properties of GetInput on the process state -/

/-- C1, as stated, fails: the request of TestControllerKind, run on the table as declared,
leaves controllerKindImports with an entry it did not have before. -/
theorem GetInput_base_table_counterexample :
    Process.init.controllerKindImports.get?
      "github.com/example-inc/app-operator/pkg/apis/app/v1alpha1".toList = none ∧
    (GetInput Process.init appControllerKind).2.2.2 = none ∧
    (GetInput Process.init appControllerKind).1.controllerKindImports.get?
      "github.com/example-inc/app-operator/pkg/apis/app/v1alpha1".toList =
      some "appv1alpha1".toList := by
  decide

/-- C1, amended: GetInput makes the ImportMap of the request the map object of
controllerKindImports itself; when the parser fails the table is as before, and otherwise the
table binds the import path of the request to GoImportIdent and binds every other path as
before the call. -/
theorem GetInput_base_table (σ : Process) (s : ControllerKind) :
    (GetInput σ s).2.1.ImportMap = MapRef.controllerKindImports ∧
    match (GetInput σ s).2.2.2 with
    | some _ => (GetInput σ s).1 = σ
    | none =>
      (GetInput σ s).1.controllerKindImports.get? (requestImportPath s) =
        some (GetInput σ s).2.1.GoImportIdent ∧
      ∀ k, k ≠ requestImportPath s →
        (GetInput σ s).1.controllerKindImports.get? k = σ.controllerKindImports.get? k :=
  GetInput_frame σ s

/-- C2, as stated, fails: after a request with custom import k8s.io/api/rbac/v1=rbacv1, the
request with custom import k8s.io/api/apps/v1=appsv1 ends with a map that binds the first
path to rbacv1, which it would not bind had the first request not run. -/
theorem GetInput_isolation_counterexample :
    "k8s.io/api/rbac/v1=rbacv1".toList ≠ "k8s.io/api/apps/v1=appsv1".toList ∧
    ((GetInput
        (GetInput Process.init
          { appControllerKind with CustomImport := "k8s.io/api/rbac/v1=rbacv1".toList }).1
        { appControllerKind with CustomImport := "k8s.io/api/apps/v1=appsv1".toList }).2.1.importMap
      (GetInput
        (GetInput Process.init
          { appControllerKind with CustomImport := "k8s.io/api/rbac/v1=rbacv1".toList }).1
        { appControllerKind with CustomImport := "k8s.io/api/apps/v1=appsv1".toList }).1).get?
      "k8s.io/api/rbac/v1".toList = some "rbacv1".toList ∧
    ((GetInput Process.init
        { appControllerKind with CustomImport := "k8s.io/api/apps/v1=appsv1".toList }).2.1.importMap
      (GetInput Process.init
        { appControllerKind with CustomImport := "k8s.io/api/apps/v1=appsv1".toList }).1).get?
      "k8s.io/api/rbac/v1".toList = none := by
  decide

/-- C2, amended: when two requests are resolved one after the other without error, the final
ImportMap of the second is the table the first left with the pair of the second merged in:
every path other than the import path of the second is bound as the first request left it,
the import path of the second is bound to its GoImportIdent, and when the two import paths
differ the path of the first is still bound to the GoImportIdent of the first. -/
theorem GetInput_second_request (σ : Process) (s1 s2 : ControllerKind)
    (h1 : (GetInput σ s1).2.2.2 = none)
    (h2 : (GetInput (GetInput σ s1).1 s2).2.2.2 = none) :
    (∀ k, k ≠ requestImportPath s2 →
      ((GetInput (GetInput σ s1).1 s2).2.1.importMap (GetInput (GetInput σ s1).1 s2).1).get? k =
        ((GetInput σ s1).2.1.importMap (GetInput σ s1).1).get? k) ∧
    ((GetInput (GetInput σ s1).1 s2).2.1.importMap (GetInput (GetInput σ s1).1 s2).1).get?
      (requestImportPath s2) = some (GetInput (GetInput σ s1).1 s2).2.1.GoImportIdent ∧
    (requestImportPath s1 ≠ requestImportPath s2 →
      ((GetInput (GetInput σ s1).1 s2).2.1.importMap (GetInput (GetInput σ s1).1 s2).1).get?
        (requestImportPath s1) = some (GetInput σ s1).2.1.GoImportIdent) := by
  obtain ⟨ha1, hb1⟩ := GetInput_frame σ s1
  obtain ⟨ha2, hb2⟩ := GetInput_frame (GetInput σ s1).1 s2
  simp only [h1] at hb1
  simp only [h2] at hb2
  simp only [ControllerKind.importMap, ha1, ha2, Process.deref]
  refine ⟨hb2.2, hb2.1, fun hne => ?_⟩
  rw [hb2.2 _ hne]
  exact hb1.1

/-- Two requests with custom imports, resolved one after the other from the declared table. -/
theorem GetInput_second_request_witness :
    ((GetInput
        (GetInput Process.init
          { appControllerKind with CustomImport := "k8s.io/api/rbac/v1=rbacv1".toList }).1
        { appControllerKind with CustomImport := "k8s.io/api/core/v2=rbacv1".toList }).2.1.importMap
      (GetInput
        (GetInput Process.init
          { appControllerKind with CustomImport := "k8s.io/api/rbac/v1=rbacv1".toList }).1
        { appControllerKind with CustomImport := "k8s.io/api/core/v2=rbacv1".toList }).1).get?
      (requestImportPath
        { appControllerKind with CustomImport := "k8s.io/api/core/v2=rbacv1".toList }) =
      some (GetInput
        (GetInput Process.init
          { appControllerKind with CustomImport := "k8s.io/api/rbac/v1=rbacv1".toList }).1
        { appControllerKind with
          CustomImport := "k8s.io/api/core/v2=rbacv1".toList }).2.1.GoImportIdent ∧
    (GetInput
        (GetInput Process.init
          { appControllerKind with CustomImport := "k8s.io/api/rbac/v1=rbacv1".toList }).1
        { appControllerKind with
          CustomImport := "k8s.io/api/core/v2=rbacv1".toList }).2.1.GoImportIdent =
      "rbacv1api".toList :=
  ⟨(GetInput_second_request Process.init
      { appControllerKind with CustomImport := "k8s.io/api/rbac/v1=rbacv1".toList }
      { appControllerKind with CustomImport := "k8s.io/api/core/v2=rbacv1".toList }
      (by decide) (by decide)).2.1, by decide⟩

/-! ## Further properties of the merge step -/

theorem setEntry_idem (k v : GoString) (l : List (GoString × GoString)) :
    setEntry k v (setEntry k v l) = setEntry k v l := by
  induction l with
  | nil => simp [setEntry]
  | cons e rest ih =>
    obtain ⟨k1, v1⟩ := e
    by_cases h : k1 = k
    · simp [setEntry, h]
    · simp [setEntry, h, ih]

theorem GoMap.ext_entries (m1 m2 : GoMap) (h : m1.entries = m2.entries) : m1 = m2 := by
  cases m1
  cases m2
  simp only [GoMap.mk.injEq]
  exact h

theorem mem_setEntry_ne (k v q w : GoString) (l : List (GoString × GoString)) (h : q ≠ k) :
    (q, w) ∈ setEntry k v l ↔ (q, w) ∈ l := by
  induction l with
  | nil => simp [setEntry, h]
  | cons e rest ih =>
    obtain ⟨k1, v1⟩ := e
    by_cases h1 : k1 = k
    · subst h1
      simp [setEntry, h]
    · simp [setEntry, h1, ih]

/-- Whether the loop finds a conflict is not changed by binding the path itself. -/
theorem collisionLoop_setEntry (p id v : GoString) (l : List (GoString × GoString)) :
    collisionLoop p (setEntry p v l) id = collisionLoop p l id := by
  rw [collisionLoop_eq, collisionLoop_eq]
  have hiff : (∃ e ∈ setEntry p v l, id = e.2 ∧ p ≠ e.1) ↔ (∃ e ∈ l, id = e.2 ∧ p ≠ e.1) := by
    constructor
    · rintro ⟨⟨q, w⟩, hm, hid, hne⟩
      exact ⟨(q, w), (mem_setEntry_ne p v q w l (Ne.symm hne)).1 hm, hid, hne⟩
    · rintro ⟨⟨q, w⟩, hm, hid, hne⟩
      exact ⟨(q, w), (mem_setEntry_ne p v q w l (Ne.symm hne)).2 hm, hid, hne⟩
  by_cases hc : ∃ e ∈ l, id = e.2 ∧ p ≠ e.1
  · rw [if_pos hc, if_pos (hiff.2 hc)]
  · rw [if_neg hc, if_neg (fun h => hc (hiff.1 h))]

/-- C11: merging (p, id) into the table that a first merge of (p, id) produced chooses the same
identifier and gives the same table, entry for entry. -/
theorem mergeImport_idempotent (t : GoMap) (p id : GoString) :
    (mergeImport (mergeImport t p id).1 p id).2 = (mergeImport t p id).2 ∧
    (mergeImport (mergeImport t p id).1 p id).1 = (mergeImport t p id).1 := by
  have hloop : collisionLoop p (setEntry p (collisionLoop p t.entries id) t.entries) id =
      collisionLoop p t.entries id := collisionLoop_setEntry p id _ t.entries
  refine ⟨?_, ?_⟩
  · simp only [mergeImport, GoMap.set]
    exact hloop
  · apply GoMap.ext_entries
    simp only [mergeImport, GoMap.set]
    rw [hloop]
    exact setEntry_idem p _ t.entries

/-- C17: the renamed identifier is not checked again.  With pkgA bound to foo and pkgC bound to
fooapi, merging (pkgB, foo) binds pkgB to fooapi, and the table then binds the two paths pkgB
and pkgC to the same non-empty identifier. -/
theorem mergeImport_single_pass :
    ∃ (t : GoMap) (p q r id : GoString),
      q ≠ p ∧ r ≠ p ∧ t.get? q = some id ∧ t.get? r = some (id ++ "api".toList) ∧
      (mergeImport t p id).2 = id ++ "api".toList ∧
      (mergeImport t p id).1.get? p = some (id ++ "api".toList) ∧
      (mergeImport t p id).1.get? r = some (id ++ "api".toList) ∧
      id ++ "api".toList ≠ [] :=
  ⟨⟨[("pkgA".toList, "foo".toList), ("pkgC".toList, "fooapi".toList)], by decide⟩,
    "pkgB".toList, "pkgA".toList, "pkgC".toList, "foo".toList, by decide⟩

theorem get?_congr_perm (t1 t2 : GoMap) (h : t1.entries.Perm t2.entries) (k : GoString) :
    t1.get? k = t2.get? k := by
  cases h1 : t1.get? k with
  | none =>
    cases h2 : t2.get? k with
    | none => rfl
    | some v =>
      have hm := h.symm.mem_iff.1 ((GoMap.mem_entries_iff t2 k v).2 h2)
      rw [(GoMap.mem_entries_iff t1 k v).1 hm] at h1
      cases h1
  | some v =>
    have hm := h.mem_iff.1 ((GoMap.mem_entries_iff t1 k v).2 h1)
    exact ((GoMap.mem_entries_iff t2 k v).1 hm).symm

theorem collisionLoop_perm (p id : GoString) (l1 l2 : List (GoString × GoString))
    (h : l1.Perm l2) : collisionLoop p l1 id = collisionLoop p l2 id := by
  rw [collisionLoop_eq, collisionLoop_eq]
  have hiff : (∃ e ∈ l1, id = e.2 ∧ p ≠ e.1) ↔ (∃ e ∈ l2, id = e.2 ∧ p ≠ e.1) := by
    constructor
    · rintro ⟨e, hm, hc⟩
      exact ⟨e, h.mem_iff.1 hm, hc⟩
    · rintro ⟨e, hm, hc⟩
      exact ⟨e, h.mem_iff.2 hm, hc⟩
  by_cases hc : ∃ e ∈ l2, id = e.2 ∧ p ≠ e.1
  · rw [if_pos hc, if_pos (hiff.2 hc)]
  · rw [if_neg hc, if_neg (fun h1 => hc (hiff.1 h1))]

/-- C18: for two maps with the same entries held in different orders, the collision loop
chooses the same identifier, which is id or id with one "api" appended, and the tables after
the assignment bind every path alike. -/
theorem mergeImport_order_independent (t1 t2 : GoMap) (p id : GoString)
    (h : t1.entries.Perm t2.entries) :
    (mergeImport t1 p id).2 = (mergeImport t2 p id).2 ∧
    ((mergeImport t1 p id).2 = id ∨ (mergeImport t1 p id).2 = id ++ "api".toList) ∧
    ∀ k, (mergeImport t1 p id).1.get? k = (mergeImport t2 p id).1.get? k := by
  have hloop := collisionLoop_perm p id t1.entries t2.entries h
  refine ⟨hloop, ?_, fun k => ?_⟩
  · simp only [mergeImport]
    rw [collisionLoop_eq]
    by_cases hc : ∃ e ∈ t1.entries, id = e.2 ∧ p ≠ e.1
    · exact Or.inr (if_pos hc)
    · exact Or.inl (if_neg hc)
  · simp only [mergeImport]
    rw [hloop]
    by_cases hk : k = p
    · subst hk
      rw [GoMap.get?_set_self, GoMap.get?_set_self]
    · rw [GoMap.get?_set_ne _ _ _ _ hk, GoMap.get?_set_ne _ _ _ _ hk]
      exact get?_congr_perm t1 t2 h k

/-- The same two entries in both orders, the conflicting one first and last. -/
theorem mergeImport_order_independent_witness :
    (mergeImport ⟨[("pkgA".toList, "foo".toList), ("pkgC".toList, "bar".toList)], by decide⟩
      "pkgB".toList "foo".toList).2 =
    (mergeImport ⟨[("pkgC".toList, "bar".toList), ("pkgA".toList, "foo".toList)], by decide⟩
      "pkgB".toList "foo".toList).2 ∧
    (mergeImport ⟨[("pkgA".toList, "foo".toList), ("pkgC".toList, "bar".toList)], by decide⟩
      "pkgB".toList "foo".toList).2 = "fooapi".toList :=
  ⟨(mergeImport_order_independent
      ⟨[("pkgA".toList, "foo".toList), ("pkgC".toList, "bar".toList)], by decide⟩
      ⟨[("pkgC".toList, "bar".toList), ("pkgA".toList, "foo".toList)], by decide⟩
      "pkgB".toList "foo".toList (List.Perm.swap _ _ _)).1, by decide⟩

/-! ## Further properties of getCustomAPIImportPathAndIdent and GetInput -/

/-- C13: the error GetInput returns is the error of the parser on a non-empty CustomImport and
nil otherwise, so GetInput fails exactly when CustomImport is not empty and the parser fails
on it; with an error it returns the zero Input, without one the Input of the receiver. -/
theorem GetInput_error (σ : Process) (s : ControllerKind) :
    (GetInput σ s).2.2.2 =
      (if s.CustomImport ≠ [] then (getCustomAPIImportPathAndIdent s.CustomImport).2.2
        else none) ∧
    ((GetInput σ s).2.2.2 ≠ none ↔
      s.CustomImport ≠ [] ∧ (getCustomAPIImportPathAndIdent s.CustomImport).2.2 ≠ none) ∧
    match (GetInput σ s).2.2.2 with
    | some _ => (GetInput σ s).2.2.1 = Input.zero
    | none => (GetInput σ s).2.2.1 = (GetInput σ s).2.1.toInput := by
  by_cases hc : s.CustomImport = []
  · by_cases hpath : s.Path = [] <;> simp [GetInput, setImports, hc, hpath]
  · rcases hp : getCustomAPIImportPathAndIdent s.CustomImport with ⟨p, id, _ | e⟩
    · by_cases hpath : s.Path = [] <;> simp [GetInput, setImports, hc, hp, hpath]
    · by_cases hpath : s.Path = [] <;> simp [GetInput, setImports, hc, hp, hpath]

/-- C20: for a and b without '=', a non-empty after trimming and b empty after trimming, the
input a ++ "=" ++ b ++ "=" ++ rest succeeds with the trimmed a as path and the identifier
derived from it, which is the result for the input a alone. -/
theorem getCustom_empty_segment (a b rest : GoString) (ha : '=' ∉ a) (hb : '=' ∉ b)
    (han : stringsTrimSpace a ≠ []) (hbe : stringsTrimSpace b = []) :
    getCustomAPIImportPathAndIdent (a ++ '=' :: (b ++ '=' :: rest)) =
      (stringsTrimSpace a, specDerivedIdent (stringsTrimSpace a), none) ∧
    getCustomAPIImportPathAndIdent (a ++ '=' :: (b ++ '=' :: rest)) =
      getCustomAPIImportPathAndIdent a := by
  have hs : stringsSplit '=' (a ++ '=' :: (b ++ '=' :: rest)) =
      a :: b :: stringsSplit '=' rest := by
    rw [stringsSplit_append _ _ _ ha, stringsSplit_append _ _ _ hb]
  have hlen : (a :: b :: stringsSplit '=' rest).length ≠ 2 := by
    have := List.length_pos.2 (stringsSplit_ne_nil '=' rest)
    simp only [List.length_cons]
    omega
  have h1 : getCustomAPIImportPathAndIdent (a ++ '=' :: (b ++ '=' :: rest)) =
      (stringsTrimSpace a, specDerivedIdent (stringsTrimSpace a), none) := by
    rw [getCustom_of_split _ _ _ _ hs (splitLoop_two a b _ _), if_neg han, if_pos hbe,
      if_neg hlen, derivedIdent_filter]
  refine ⟨h1, ?_⟩
  rw [h1, getCustom_noSep a ha han, derivedIdent_filter]

/-- The input "k8s.io/api/rbac/v1==x". -/
theorem getCustom_empty_segment_witness :
    getCustomAPIImportPathAndIdent
      ("k8s.io/api/rbac/v1".toList ++ '=' :: ([] ++ '=' :: "x".toList)) =
      getCustomAPIImportPathAndIdent "k8s.io/api/rbac/v1".toList ∧
    getCustomAPIImportPathAndIdent "k8s.io/api/rbac/v1==x".toList =
      ("k8s.io/api/rbac/v1".toList, "rbacv1".toList, none) :=
  ⟨(getCustom_empty_segment "k8s.io/api/rbac/v1".toList [] "x".toList (by decide) (by decide)
      (by decide) (by decide)).2, by decide⟩

theorem dropWhile_eq_self_of_head (P : Char → Bool) (c : Char) (l : GoString)
    (h : P c = false) : (c :: l).dropWhile P = c :: l := by
  simp [List.dropWhile_cons, h]

theorem head_not_of_dropWhile_eq (P : Char → Bool) (c : Char) (l : GoString)
    (h : (c :: l).dropWhile P = c :: l) : P c = false := by
  cases hc : P c with
  | false => rfl
  | true =>
    rw [List.dropWhile_cons_of_pos hc] at h
    have h1 := (List.dropWhile_suffix P (l := l)).length_le
    rw [h] at h1
    simp at h1

theorem stringsTrimSpace_idempotent (s : GoString) :
    stringsTrimSpace (stringsTrimSpace s) = stringsTrimSpace s := by
  unfold stringsTrimSpace
  have hu : (s.dropWhile unicodeIsSpace).dropWhile unicodeIsSpace = s.dropWhile unicodeIsSpace :=
    List.dropWhile_idempotent _ _
  generalize s.dropWhile unicodeIsSpace = u at hu
  have ht : (u.rdropWhile unicodeIsSpace).dropWhile unicodeIsSpace =
      u.rdropWhile unicodeIsSpace := by
    obtain ⟨r, hr⟩ := List.rdropWhile_prefix unicodeIsSpace u
    cases hcase : u.rdropWhile unicodeIsSpace with
    | nil => rfl
    | cons c t =>
      rw [hcase] at hr
      rw [← hr] at hu
      exact dropWhile_eq_self_of_head _ c t (head_not_of_dropWhile_eq _ c (t ++ r) hu)
  rw [ht]
  exact List.rdropWhile_idempotent _ _

theorem stringsTrimSpace_sublist (s : GoString) : (stringsTrimSpace s).Sublist s :=
  (List.rdropWhile_prefix unicodeIsSpace _).sublist.trans (List.dropWhile_sublist unicodeIsSpace)

/-- A string without white space is its own trimmed form. -/
theorem stringsTrimSpace_of_no_space (s : GoString)
    (h : ∀ c ∈ s, unicodeIsSpace c = false) : stringsTrimSpace s = s := by
  unfold stringsTrimSpace
  have h1 : s.dropWhile unicodeIsSpace = s := by
    cases s with
    | nil => rfl
    | cons c t => exact dropWhile_eq_self_of_head _ c t (h c (List.mem_cons_self _ _))
  rw [h1, List.rdropWhile_eq_self_iff]
  intro hl
  have := h _ (List.getLast_mem hl)
  simp [this]

theorem identRune_not_space (c : Char) (h : identRune c = true) : unicodeIsSpace c = false := by
  cases hs : unicodeIsSpace c with
  | false => rfl
  | true =>
    rw [(unicodeIsSpace_facts c hs).2.2.1] at h
    cases h

theorem beforeFirstEq_no_eq (m : GoString) : '=' ∉ beforeFirstEq m := by
  intro h
  have := List.mem_takeWhile_imp h
  simp at this

/-- What a successful call of the parser returns. -/
theorem getCustom_success (m p id : GoString)
    (h : getCustomAPIImportPathAndIdent m = (p, id, none)) :
    p = stringsTrimSpace (beforeFirstEq m) ∧ p ≠ [] ∧
      id = (parsedOrDerivedIdent m).filter identRune := by
  rw [getCustom_eq] at h
  unfold parsedOrDerivedIdent
  by_cases h1 : stringsTrimSpace (beforeFirstEq m) = []
  · rw [if_pos h1] at h
    simp at h
  · rw [if_neg h1] at h
    by_cases h2 : stringsTrimSpace (afterFirstEq m) = []
    · rw [if_pos h2] at h
      rw [if_neg (not_not.2 h2)]
      by_cases h3 : (stringsSplit '=' m).length = 2
      · rw [if_pos h3] at h
        simp at h
      · rw [if_neg h3] at h
        simp only [Prod.mk.injEq] at h
        exact ⟨h.1.symm, h.1 ▸ h1, h.2.1.symm⟩
    · rw [if_neg h2] at h
      rw [if_pos h2]
      simp only [Prod.mk.injEq] at h
      exact ⟨h.1.symm, h.1 ▸ h1, h.2.1.symm⟩

/-- C19: when getCustomAPIImportPathAndIdent succeeds on m with path p and a non-empty
identifier id, it succeeds on p ++ "=" ++ id and returns p and id again. -/
theorem getCustom_fixed_point (m p id : GoString)
    (h : getCustomAPIImportPathAndIdent m = (p, id, none)) (hid : id ≠ []) :
    getCustomAPIImportPathAndIdent (p ++ '=' :: id) = (p, id, none) := by
  obtain ⟨hp, hpne, hi⟩ := getCustom_success m p id h
  have hkeep : ∀ c ∈ id, identRune c = true := by
    intro c hc
    rw [hi] at hc
    exact (List.mem_filter.1 hc).2
  have hpeq : '=' ∉ p := by
    rw [hp]
    exact fun hmem => beforeFirstEq_no_eq m ((stringsTrimSpace_sublist _).subset hmem)
  have hieq : '=' ∉ id := by
    intro hmem
    have := hkeep _ hmem
    revert this
    decide
  have htp : stringsTrimSpace p = p := by
    rw [hp]
    exact stringsTrimSpace_idempotent _
  have hti : stringsTrimSpace id = id :=
    stringsTrimSpace_of_no_space id fun c hc => identRune_not_space c (hkeep c hc)
  rw [getCustom_pair p id hpeq hieq (by rw [htp]; exact hpne) (by rw [hti]; exact hid), htp, hti]
  have hf : id.filter identRune = id := List.filter_eq_self.2 hkeep
  rw [hf]

/-- The result of the test input with identifier rbac-v1, parsed again. -/
theorem getCustom_fixed_point_witness :
    getCustomAPIImportPathAndIdent ("k8s.io/api/rbac/v1".toList ++ '=' :: "rbacv1".toList) =
      ("k8s.io/api/rbac/v1".toList, "rbacv1".toList, none) :=
  getCustom_fixed_point "k8s.io/api/rbac/v1=rbac-v1".toList "k8s.io/api/rbac/v1".toList
    "rbacv1".toList (by decide) (by decide)

/-! ## The output path and the default import -/

theorem plainSegment_iff (e : GoString) :
    plainSegment e = true ↔ e ≠ [] ∧ '/' ∉ e ∧ e ≠ ['.'] ∧ e ≠ ['.', '.'] := by
  simp [plainSegment, and_assoc]

theorem stringsSplit_joinSlash (segs : List GoString) (hne : segs ≠ [])
    (h : ∀ e ∈ segs, '/' ∉ e) : stringsSplit '/' (joinSlash segs) = segs := by
  induction segs with
  | nil => exact absurd rfl hne
  | cons e rest ih =>
    cases rest with
    | nil => exact stringsSplit_noSep '/' e (h e (List.mem_cons_self _ _))
    | cons e2 r2 =>
      have he := h e (List.mem_cons_self _ _)
      show stringsSplit '/' (e ++ '/' :: joinSlash (e2 :: r2)) = e :: e2 :: r2
      rw [stringsSplit_append '/' e _ he,
        ih (by simp) fun x hx => h x (List.mem_cons_of_mem _ hx)]

theorem cleanLoop_no_dotdot (rooted : Bool) (l out : List GoString)
    (h : ∀ e ∈ l, e ≠ ['.', '.']) : cleanLoop rooted l out = out.reverse ++ l := by
  induction l generalizing out with
  | nil => simp [cleanLoop]
  | cons e rest ih =>
    have he := h e (List.mem_cons_self _ _)
    have hstep : cleanLoop rooted (e :: rest) out = cleanLoop rooted rest (e :: out) := by
      simp [cleanLoop, he]
    rw [hstep, ih (e :: out) fun x hx => h x (List.mem_cons_of_mem _ hx)]
    simp

theorem joinSlash_head (e : GoString) (rest : List GoString) (c : Char) (t : GoString)
    (he : e = c :: t) : ∃ u, joinSlash (e :: rest) = c :: u := by
  subst he
  cases rest with
  | nil => exact ⟨t, rfl⟩
  | cons e2 r2 => exact ⟨t ++ '/' :: joinSlash (e2 :: r2), rfl⟩

/-- Go path.Clean leaves alone a path whose elements are all plain. -/
theorem pathClean_joinSlash (segs : List GoString) (hne : segs ≠ [])
    (h : ∀ e ∈ segs, plainSegment e = true) : pathClean (joinSlash segs) = joinSlash segs := by
  have hp := fun e he => (plainSegment_iff e).1 (h e he)
  cases segs with
  | nil => exact absurd rfl hne
  | cons e rest =>
    obtain ⟨c, t, hct⟩ : ∃ c t, e = c :: t := by
      cases he : e with
      | nil => exact absurd he (hp e (List.mem_cons_self _ _)).1
      | cons c t => exact ⟨c, t, rfl⟩
    obtain ⟨u, hu⟩ := joinSlash_head e rest c t hct
    have hc : c ≠ '/' := by
      intro hc
      apply (hp e (List.mem_cons_self _ _)).2.1
      rw [hct, hc]
      exact List.mem_cons_self _ _
    have hsplit := stringsSplit_joinSlash (e :: rest) hne fun x hx => (hp x hx).2.1
    have hfilter : (e :: rest).filter (fun x => !(decide (x = []) || decide (x = ['.']))) =
        e :: rest := by
      apply List.filter_eq_self.2
      intro x hx
      simp [(hp x hx).1, (hp x hx).2.2.1]
    have hclean := cleanLoop_no_dotdot (decide ((joinSlash (e :: rest)).head? = some '/'))
      (e :: rest) [] fun x hx => (hp x hx).2.2.2
    simp only [pathClean, hsplit, hfilter, hclean, List.reverse_nil, List.nil_append]
    rw [hu]
    simp [hc]

theorem fileName_plain (lk : GoString) (h : plainSegment lk = true) :
    plainSegment (lk ++ "_controller.go".toList) = true := by
  have hp := (plainSegment_iff lk).1 h
  rw [plainSegment_iff]
  have hlen : (lk ++ "_controller.go".toList).length = lk.length + 14 := by
    rw [List.length_append]
    rfl
  refine ⟨?_, ?_, ?_, ?_⟩
  · intro h0
    rw [h0] at hlen
    simp at hlen
  · intro hm
    rcases List.mem_append.1 hm with h1 | h1
    · exact hp.2.1 h1
    · revert h1
      decide
  · intro h0
    rw [h0] at hlen
    simp at hlen
  · intro h0
    rw [h0] at hlen
    simp at hlen

/-- The derived path of the file, for a kind and a version that are plain path elements. -/
theorem pathJoin_controller (lk v : GoString) (hlk : plainSegment lk = true)
    (hv : plainSegment v = true) :
    pathJoin [ControllerDir, lk, v, lk ++ "_controller.go".toList] =
      ControllerDir ++ '/' :: (lk ++ '/' :: (v ++ '/' :: (lk ++ "_controller.go".toList))) := by
  have hfn := fileName_plain lk hlk
  have h1 := ((plainSegment_iff lk).1 hlk).1
  have h2 := ((plainSegment_iff v).1 hv).1
  have h3 := ((plainSegment_iff _).1 hfn).1
  have hcd : ControllerDir ≠ [] := by decide
  have hjoin : joinSlash [ControllerDir, lk, v, lk ++ "_controller.go".toList] =
      joinSlash ["pkg".toList, "controller".toList, lk, v, lk ++ "_controller.go".toList] := rfl
  have hparts : [ControllerDir, lk, v, lk ++ "_controller.go".toList].filter
      (fun e => !decide (e = [])) = [ControllerDir, lk, v, lk ++ "_controller.go".toList] := by
    apply List.filter_eq_self.2
    intro x hx
    simp only [List.mem_cons, List.mem_singleton, List.mem_nil_iff, or_false] at hx
    rcases hx with hx | hx | hx | hx <;> subst hx <;> simp [hcd, h1, h2, h3]
  unfold pathJoin
  simp only [hparts]
  rw [if_neg (by simp), hjoin, pathClean_joinSlash _ (by simp)]
  · rfl
  · intro e he
    simp only [List.mem_cons, List.mem_singleton, List.mem_nil_iff, or_false] at he
    rcases he with he | he | he | he | he
    · subst he; decide
    · subst he; decide
    · subst he; exact hlk
    · subst he; exact hv
    · subst he; exact hfn

theorem GetInput_Path (σ : Process) (s : ControllerKind)
    (h : (GetInput σ s).2.2.2 = none) :
    (GetInput σ s).2.2.1.Path =
      if s.Path = [] then
        pathJoin [ControllerDir, s.Resource.LowerKind, s.Resource.Version,
          s.Resource.LowerKind ++ "_controller.go".toList]
      else s.Path := by
  by_cases hc : s.CustomImport = []
  · by_cases hpath : s.Path = [] <;> simp [GetInput, setImports, hc, hpath]
  · rcases hp : getCustomAPIImportPathAndIdent s.CustomImport with ⟨p, id, _ | e⟩
    · by_cases hpath : s.Path = [] <;> simp [GetInput, setImports, hc, hp, hpath]
    · by_cases hpath : s.Path = [] <;> simp [GetInput, setImports, hc, hp, hpath] at h

/-- C14: when GetInput succeeds, the Path of the returned Input is the Path of the receiver
when that was set; otherwise it is the join of ControllerDir, LowerKind, Version and
LowerKind_controller.go, which reads ControllerDir/LowerKind/Version/LowerKind_controller.go
when LowerKind and Version are plain path elements.  Neither CustomImport nor the import table
enters it. -/
theorem GetInput_output_path (σ : Process) (s : ControllerKind)
    (h : (GetInput σ s).2.2.2 = none) :
    (s.Path ≠ [] → (GetInput σ s).2.2.1.Path = s.Path) ∧
    (s.Path = [] → (GetInput σ s).2.2.1.Path =
      pathJoin [ControllerDir, s.Resource.LowerKind, s.Resource.Version,
        s.Resource.LowerKind ++ "_controller.go".toList]) ∧
    (s.Path = [] → plainSegment s.Resource.LowerKind = true →
      plainSegment s.Resource.Version = true →
      (GetInput σ s).2.2.1.Path =
        ControllerDir ++ '/' :: (s.Resource.LowerKind ++ '/' :: (s.Resource.Version ++ '/' ::
          (s.Resource.LowerKind ++ "_controller.go".toList)))) := by
  have hP := GetInput_Path σ s h
  refine ⟨fun hne => ?_, fun he => ?_, fun he hlk hv => ?_⟩
  · rw [hP, if_neg hne]
  · rw [hP, if_pos he]
  · rw [hP, if_pos he, pathJoin_controller _ _ hlk hv]

/-- The request of TestControllerKind gets the path of the appservice controller. -/
theorem GetInput_output_path_witness :
    (GetInput Process.init appControllerKind).2.2.1.Path =
      ControllerDir ++ '/' :: (appControllerKind.Resource.LowerKind ++ '/' ::
        (appControllerKind.Resource.Version ++ '/' ::
          (appControllerKind.Resource.LowerKind ++ "_controller.go".toList))) ∧
    (GetInput Process.init appControllerKind).2.2.1.Path =
      "pkg/controller/appservice/v1alpha1/appservice_controller.go".toList :=
  ⟨(GetInput_output_path Process.init appControllerKind (by decide)).2.2 (by decide)
      (by decide) (by decide), by decide⟩

/-- C15, as stated, fails: setImports does not lower-case.  For a resource with import group
App and version V1 the identifier is AppV1, not appv1. -/
theorem GetInput_default_import_counterexample :
    (GetInput Process.init
      { appControllerKind with
        Resource := { LowerKind := "appservice".toList, Version := "V1".toList,
                      GoImportGroup := "App".toList } }).2.1.GoImportIdent = "AppV1".toList ∧
    stringsToLower ("App".toList ++ "V1".toList) = "appv1".toList ∧
    "AppV1".toList ≠ "appv1".toList := by
  decide

/-- C15, amended: with an empty CustomImport GetInput succeeds and merges into the table the
pair made of the join of Repo, "pkg", "apis", GoImportGroup and Version, and of GoImportGroup
followed by Version as the resource holds them (the lower-cased concatenation when they are in
lower case).  When no other path is bound to that identifier, GoImportIdent is that identifier
and the table after the call is the table before it with this one entry written. -/
theorem GetInput_default_import (σ : Process) (s : ControllerKind) (hc : s.CustomImport = []) :
    (GetInput σ s).2.2.2 = none ∧
    (GetInput σ s).1.controllerKindImports =
      (mergeImport σ.controllerKindImports
        (pathJoin [s.Repo, "pkg".toList, "apis".toList, s.Resource.GoImportGroup,
          s.Resource.Version])
        (s.Resource.GoImportGroup ++ s.Resource.Version)).1 ∧
    (GetInput σ s).2.1.GoImportIdent =
      (mergeImport σ.controllerKindImports
        (pathJoin [s.Repo, "pkg".toList, "apis".toList, s.Resource.GoImportGroup,
          s.Resource.Version])
        (s.Resource.GoImportGroup ++ s.Resource.Version)).2 ∧
    (stringsToLower (s.Resource.GoImportGroup ++ s.Resource.Version) =
        s.Resource.GoImportGroup ++ s.Resource.Version →
      requestIdent s = stringsToLower (s.Resource.GoImportGroup ++ s.Resource.Version)) ∧
    ((∀ q, σ.controllerKindImports.get? q =
          some (s.Resource.GoImportGroup ++ s.Resource.Version) →
        q = pathJoin [s.Repo, "pkg".toList, "apis".toList, s.Resource.GoImportGroup,
          s.Resource.Version]) →
      (GetInput σ s).2.1.GoImportIdent = s.Resource.GoImportGroup ++ s.Resource.Version ∧
      (GetInput σ s).1.controllerKindImports.get?
        (pathJoin [s.Repo, "pkg".toList, "apis".toList, s.Resource.GoImportGroup,
          s.Resource.Version]) = some (s.Resource.GoImportGroup ++ s.Resource.Version) ∧
      ∀ k, k ≠ pathJoin [s.Repo, "pkg".toList, "apis".toList, s.Resource.GoImportGroup,
          s.Resource.Version] →
        (GetInput σ s).1.controllerKindImports.get? k = σ.controllerKindImports.get? k) := by
  have herr : (GetInput σ s).2.2.2 = none := by
    by_cases hpath : s.Path = [] <;> simp [GetInput, setImports, hc, hpath]
  have hspec := (GetInput_spec σ s).2
  simp only [herr] at hspec
  have hpth : requestImportPath s = pathJoin [s.Repo, "pkg".toList, "apis".toList,
      s.Resource.GoImportGroup, s.Resource.Version] := by
    simp [requestImportPath, hc]
  have hidt : requestIdent s = s.Resource.GoImportGroup ++ s.Resource.Version := by
    simp [requestIdent, hc]
  rw [hpth, hidt] at hspec
  refine ⟨herr, hspec.1, hspec.2, fun hl => by rw [hidt, hl], fun hfree => ?_⟩
  have hloop : collisionLoop
      (pathJoin [s.Repo, "pkg".toList, "apis".toList, s.Resource.GoImportGroup,
        s.Resource.Version]) σ.controllerKindImports.entries
      (s.Resource.GoImportGroup ++ s.Resource.Version) =
      s.Resource.GoImportGroup ++ s.Resource.Version := by
    apply collisionLoop_of_no_conflict
    rintro ⟨q, v⟩ hm ⟨hid, hne⟩
    simp only at hid hne
    exact hne (hfree q ((GoMap.mem_entries_iff _ q _).1 (hid ▸ hm))).symm
  rw [hspec.1, hspec.2]
  simp only [mergeImport, hloop]
  exact ⟨trivial, GoMap.get?_set_self _ _ _, fun k hk => GoMap.get?_set_ne _ _ _ k hk⟩

/-- The request of TestControllerKind: appv1alpha1 is bound to the package of the API. -/
theorem GetInput_default_import_witness :
    (GetInput Process.init appControllerKind).2.2.2 = none ∧
    (GetInput Process.init appControllerKind).2.1.GoImportIdent = "appv1alpha1".toList ∧
    (GetInput Process.init appControllerKind).1.controllerKindImports.get?
      "github.com/example-inc/app-operator/pkg/apis/app/v1alpha1".toList =
      some "appv1alpha1".toList :=
  ⟨(GetInput_default_import Process.init appControllerKind rfl).1, by decide, by decide⟩

/-! ## Identifiers of one request against the declared table -/

theorem base_ident_unique : ∀ e1 ∈ controllerKindImports.entries,
    ∀ e2 ∈ controllerKindImports.entries, e1.2 = e2.2 → e1.2 ≠ [] → e1.1 = e2.1 := by
  decide

theorem base_ident_last : ∀ e ∈ controllerKindImports.entries, e.2.getLast? ≠ some 'i' := by
  decide

/-- The table after one merge into the declared table binds no two paths to the same non-empty
identifier. -/
theorem mergeImport_base_unique (p id q1 q2 v : GoString)
    (h1 : (mergeImport controllerKindImports p id).1.get? q1 = some v)
    (h2 : (mergeImport controllerKindImports p id).1.get? q2 = some v) (hv : v ≠ []) :
    q1 = q2 := by
  have key : ∀ q, q ≠ p → (mergeImport controllerKindImports p id).1.get? q = some v →
      (mergeImport controllerKindImports p id).1.get? p = some v → False := by
    intro q hq hq1 hp1
    simp only [mergeImport] at hq1 hp1
    rw [GoMap.get?_set_ne _ _ _ _ hq] at hq1
    rw [GoMap.get?_set_self] at hp1
    have hm := (GoMap.mem_entries_iff _ q v).2 hq1
    have hg : collisionLoop p controllerKindImports.entries id = v := Option.some.inj hp1
    rw [collisionLoop_eq] at hg
    by_cases hc : ∃ e ∈ controllerKindImports.entries, id = e.2 ∧ p ≠ e.1
    · rw [if_pos hc] at hg
      apply base_ident_last (q, v) hm
      rw [← hg]
      simp [List.getLast?_append]
    · rw [if_neg hc] at hg
      exact hc ⟨(q, v), hm, hg, Ne.symm hq⟩
  by_cases hq1 : q1 = p
  · by_cases hq2 : q2 = p
    · rw [hq1, hq2]
    · subst hq1
      exact (key q2 hq2 h2 h1).elim
  · by_cases hq2 : q2 = p
    · subst hq2
      exact (key q1 hq1 h1 h2).elim
    · simp only [mergeImport] at h1 h2
      rw [GoMap.get?_set_ne _ _ _ _ hq1] at h1
      rw [GoMap.get?_set_ne _ _ _ _ hq2] at h2
      exact base_ident_unique (q1, v) ((GoMap.mem_entries_iff _ q1 v).2 h1) (q2, v)
        ((GoMap.mem_entries_iff _ q2 v).2 h2) rfl hv

/-- C16: for every request that setImports resolves without error against the table as
declared, custom import or default import, no two distinct paths of the resulting ImportMap
are bound to the same non-empty identifier. -/
theorem setImports_unique_identifiers (s : ControllerKind) (q1 q2 v : GoString)
    (herr : (setImports Process.init s).2.2 = none) (hne : q1 ≠ q2)
    (h1 : ((setImports Process.init s).2.1.importMap (setImports Process.init s).1).get? q1 =
      some v)
    (hv : v ≠ []) :
    ((setImports Process.init s).2.1.importMap (setImports Process.init s).1).get? q2 ≠
      some v := by
  intro h2
  obtain ⟨hmap, hspec⟩ := setImports_spec Process.init s
  simp only [herr] at hspec
  simp only [ControllerKind.importMap, hmap, Process.deref, hspec.1] at h1 h2
  exact hne (mergeImport_base_unique _ _ q1 q2 v h1 h2 hv)

/-- The request with custom import k8s.io/api/core/v2=corev1: k8s.io/api/core/v1 is bound to
corev1, and the new path is not, being bound to corev1api. -/
theorem setImports_unique_identifiers_witness :
    ((setImports Process.init
        { appControllerKind with CustomImport := "k8s.io/api/core/v2=corev1".toList }).2.1.importMap
      (setImports Process.init
        { appControllerKind with CustomImport := "k8s.io/api/core/v2=corev1".toList }).1).get?
      "k8s.io/api/core/v2".toList ≠ some "corev1".toList ∧
    ((setImports Process.init
        { appControllerKind with CustomImport := "k8s.io/api/core/v2=corev1".toList }).2.1.importMap
      (setImports Process.init
        { appControllerKind with CustomImport := "k8s.io/api/core/v2=corev1".toList }).1).get?
      "k8s.io/api/core/v2".toList = some "corev1api".toList :=
  ⟨setImports_unique_identifiers
      { appControllerKind with CustomImport := "k8s.io/api/core/v2=corev1".toList }
      "k8s.io/api/core/v1".toList "k8s.io/api/core/v2".toList "corev1".toList
      (by decide) (by decide) (by decide) (by decide), by decide⟩

/-! ## The order in which the template visits the imports -/

theorem goStringLe_total (a b : GoString) : goStringLe a b = true ∨ goStringLe b a = true := by
  induction a generalizing b with
  | nil => exact Or.inl rfl
  | cons x xs ih =>
    cases b with
    | nil => exact Or.inr rfl
    | cons y ys =>
      simp only [goStringLe, Bool.or_eq_true, Bool.and_eq_true, decide_eq_true_eq]
      rcases Nat.lt_trichotomy x.toNat y.toNat with h | h | h
      · exact Or.inl (Or.inl h)
      · rcases ih ys with h1 | h1
        · exact Or.inl (Or.inr ⟨h, h1⟩)
        · exact Or.inr (Or.inr ⟨h.symm, h1⟩)
      · exact Or.inr (Or.inl h)

theorem goStringLe_trans (a b c : GoString) (h1 : goStringLe a b = true)
    (h2 : goStringLe b c = true) : goStringLe a c = true := by
  induction a generalizing b c with
  | nil => rfl
  | cons x xs ih =>
    cases b with
    | nil => simp [goStringLe] at h1
    | cons y ys =>
      cases c with
      | nil => simp [goStringLe] at h2
      | cons z zs =>
        simp only [goStringLe, Bool.or_eq_true, Bool.and_eq_true, decide_eq_true_eq] at h1 h2 ⊢
        rcases h1 with h1 | ⟨h1, h1r⟩
        · rcases h2 with h2 | ⟨h2, _⟩
          · exact Or.inl (by omega)
          · exact Or.inl (by omega)
        · rcases h2 with h2 | ⟨h2, h2r⟩
          · exact Or.inl (by omega)
          · exact Or.inr ⟨by omega, ih ys zs h1r h2r⟩

theorem goStringLe_antisymm (a b : GoString) (h1 : goStringLe a b = true)
    (h2 : goStringLe b a = true) : a = b := by
  induction a generalizing b with
  | nil =>
    cases b with
    | nil => rfl
    | cons y ys => simp [goStringLe] at h2
  | cons x xs ih =>
    cases b with
    | nil => simp [goStringLe] at h1
    | cons y ys =>
      simp only [goStringLe, Bool.or_eq_true, Bool.and_eq_true, decide_eq_true_eq] at h1 h2
      rcases h1 with h1 | ⟨h1, h1r⟩
      · rcases h2 with h2 | ⟨h2, _⟩ <;> omega
      · rcases h2 with h2 | ⟨_, h2r⟩
        · omega
        · have hxy : x = y := Char.ext (UInt32.ext (by simpa [Char.toNat] using h1))
          rw [hxy, ih ys h1r h2r]

theorem sortedKeys_sorted (m : GoMap) :
    List.Sorted (fun a b => goStringLe a b = true) (sortedKeys m) := by
  haveI : IsTotal GoString fun a b => goStringLe a b = true := ⟨goStringLe_total⟩
  haveI : IsTrans GoString fun a b => goStringLe a b = true := ⟨goStringLe_trans⟩
  exact List.sorted_insertionSort _ _

theorem sortedKeys_perm (m : GoMap) : (sortedKeys m).Perm (m.entries.map Prod.fst) :=
  List.perm_insertionSort _ _

theorem map_lookup_entries (m : GoMap) (l : List (GoString × GoString))
    (h : ∀ e ∈ l, e ∈ m.entries) :
    (l.map Prod.fst).map (fun k => (k, (m.get? k).getD [])) = l := by
  induction l with
  | nil => rfl
  | cons e rest ih =>
    obtain ⟨k, v⟩ := e
    have hk := (GoMap.mem_entries_iff m k v).1 (h (k, v) (List.mem_cons_self _ _))
    simp only [List.map_cons, hk, Option.getD_some]
    rw [ih fun x hx => h x (List.mem_cons_of_mem _ hx)]

theorem templateRange_fst (m : GoMap) : (templateRange m).map Prod.fst = sortedKeys m := by
  simp [templateRange, Function.comp_def]

theorem templateRange_perm (m : GoMap) : (templateRange m).Perm m.entries := by
  have h := (sortedKeys_perm m).map fun k => (k, (m.get? k).getD [])
  rw [map_lookup_entries m m.entries fun e he => he] at h
  exact h

theorem templateRange_congr (m1 m2 : GoMap) (h : m1.entries.Perm m2.entries) :
    templateRange m1 = templateRange m2 := by
  haveI : IsAntisymm GoString fun a b => goStringLe a b = true := ⟨goStringLe_antisymm⟩
  have hk : sortedKeys m1 = sortedKeys m2 :=
    List.eq_of_perm_of_sorted
      (((sortedKeys_perm m1).trans (h.map Prod.fst)).trans (sortedKeys_perm m2).symm)
      (sortedKeys_sorted m1) (sortedKeys_sorted m2)
  simp only [templateRange, hk]
  exact List.map_congr_left fun k _ => by rw [get?_congr_perm m1 m2 h k]

/-- C12, as stated, fails: ImportMap is a Go map, not a sequence sorted by path.  For the
request of TestControllerKind its entries, taken in the order of the declaration of
controllerKindImports followed by the new entry, are not in path order. -/
theorem ImportMap_sorted_counterexample :
    ¬ List.Sorted (fun a b => goStringLe a b = true)
      (((GetInput Process.init appControllerKind).2.1.importMap
        (GetInput Process.init appControllerKind).1).entries.map Prod.fst) := by
  decide

/-- C12, amended: the range action of the template visits the entries of the map ImportMap in
strictly increasing order of their paths, each entry once, whatever the order in which the map
holds them: two maps with the same entries give the same sequence of pairs and the same import
lines. -/
theorem templateRange_sorted (m1 m2 : GoMap) (h : m1.entries.Perm m2.entries) :
    List.Sorted (fun a b => goStringLe a b = true ∧ a ≠ b) ((templateRange m1).map Prod.fst) ∧
    (templateRange m1).Perm m1.entries ∧
    templateRange m2 = templateRange m1 ∧
    renderImports m2 = renderImports m1 := by
  have hcongr := templateRange_congr m1 m2 h
  refine ⟨?_, templateRange_perm m1, hcongr.symm, ?_⟩
  · rw [templateRange_fst]
    have hnd : (sortedKeys m1).Nodup := (sortedKeys_perm m1).nodup_iff.2 m1.nodup
    exact List.Pairwise.and (sortedKeys_sorted m1) hnd
  · simp only [renderImports, hcongr]

/-- The request of TestControllerKind: the fourteen imports in the order of the expected
output of the test. -/
theorem templateRange_sorted_witness :
    List.Sorted (fun a b => goStringLe a b = true ∧ a ≠ b)
      ((templateRange ((GetInput Process.init appControllerKind).2.1.importMap
        (GetInput Process.init appControllerKind).1)).map Prod.fst) ∧
    templateRange ((GetInput Process.init appControllerKind).2.1.importMap
        (GetInput Process.init appControllerKind).1) =
      [("github.com/example-inc/app-operator/pkg/apis/app/v1alpha1".toList,
          "appv1alpha1".toList),
       ("k8s.io/api/core/v1".toList, "corev1".toList),
       ("k8s.io/apimachinery/pkg/api/errors".toList, []),
       ("k8s.io/apimachinery/pkg/apis/meta/v1".toList, "metav1".toList),
       ("k8s.io/apimachinery/pkg/runtime".toList, []),
       ("k8s.io/apimachinery/pkg/types".toList, []),
       ("sigs.k8s.io/controller-runtime/pkg/client".toList, []),
       ("sigs.k8s.io/controller-runtime/pkg/controller".toList, []),
       ("sigs.k8s.io/controller-runtime/pkg/controller/controllerutil".toList, []),
       ("sigs.k8s.io/controller-runtime/pkg/handler".toList, []),
       ("sigs.k8s.io/controller-runtime/pkg/log".toList, "logf".toList),
       ("sigs.k8s.io/controller-runtime/pkg/manager".toList, []),
       ("sigs.k8s.io/controller-runtime/pkg/reconcile".toList, []),
       ("sigs.k8s.io/controller-runtime/pkg/source".toList, [])] :=
  ⟨(templateRange_sorted _ _ (List.Perm.refl _)).1, by decide⟩

end Scaffold
